import Mathlib

/-!
Verification development for the super-rpc library: a symmetric, bidirectional
object-graph RPC core.  The definitions below are a shallow embedding of the
TypeScript sources (proxy-object-registry.ts, super-rpc.ts, rpc-message-types.ts).
JavaScript objects are modelled by an explicit heap (addresses are natural
numbers), object identity is address equality, and stateful methods of the
SuperRPC class are functions on an explicit service state.  Recursive value
marshalling is bounded by an explicit fuel parameter; running out of fuel is a
distinguished outcome and never identified with an ordinary result.
-/

namespace SuperRpc

/-! ## Association list helpers (JavaScript Map model)

A JavaScript Map has unique keys; we model it by an association list where
`ainsert` replaces an existing binding (Map.set), `aerase` removes the binding
(Map.delete) and `alookup` is Map.get. -/

/-- Map.get on an association list. -/
def alookup {α : Type} [DecidableEq α] {β : Type} : List (α × β) → α → Option β
  | [], _ => none
  | (k, v) :: rest, key => if k = key then some v else alookup rest key

/-- Map.set on an association list: replaces an existing binding in place,
otherwise appends at the end. -/
def ainsert {α : Type} [DecidableEq α] {β : Type} : List (α × β) → α → β → List (α × β)
  | [], key, v => [(key, v)]
  | (k, w) :: rest, key, v =>
      if k = key then (key, v) :: rest else (k, w) :: ainsert rest key v

/-- Map.delete on an association list: removes the first binding with the key. -/
def aerase {α : Type} [DecidableEq α] {β : Type} : List (α × β) → α → List (α × β)
  | [], _ => []
  | (k, w) :: rest, key => if k = key then rest else (k, w) :: aerase rest key

/-! ## Descriptor model (rpc-descriptor-types)

The descriptor source file is not part of the provided sources; the shapes
below follow the fields that super-rpc.ts reads and the description in the
specification (function descriptors carry a name, a return behavior and
per-argument sub-descriptors that may be declared sparsely by an idx field;
object descriptors list functions, readonly properties, proxied properties and
events; class descriptors bundle ctor, static and instance parts). -/

/-- FunctionReturnBehavior: the declared call mode of a function. -/
inductive FunctionReturnBehavior where
  | void
  | sync
  | async
deriving DecidableEq, Repr

/-- A function descriptor.  Argument sub-descriptors are themselves function
descriptors carrying an optional positional idx, hence the nested inductive.
The type field records the runtime tag that registration methods assign
(descriptor.type = 'function' and so on). -/
inductive FunctionDescriptor where
  | mk (dtype : Option String) (nameF : Option String)
       (returnsF : Option FunctionReturnBehavior) (idxF : Option Nat)
       (argsF : List FunctionDescriptor)

/-- The type tag of a function descriptor. -/
def FunctionDescriptor.dtype : FunctionDescriptor → Option String
  | .mk t _ _ _ _ => t

/-- The name of a function descriptor. -/
def FunctionDescriptor.nameF : FunctionDescriptor → Option String
  | .mk _ n _ _ _ => n

/-- The declared return behavior of a function descriptor. -/
def FunctionDescriptor.returnsF : FunctionDescriptor → Option FunctionReturnBehavior
  | .mk _ _ r _ _ => r

/-- The sparse positional index of an argument sub-descriptor. -/
def FunctionDescriptor.idxF : FunctionDescriptor → Option Nat
  | .mk _ _ _ i _ => i

/-- The argument sub-descriptors of a function descriptor. -/
def FunctionDescriptor.argsF : FunctionDescriptor → List FunctionDescriptor
  | .mk _ _ _ _ a => a

/-- Replace the type tag (models the mutation descriptor.type = tag). -/
def FunctionDescriptor.setDtype (d : FunctionDescriptor) (t : String) : FunctionDescriptor :=
  .mk (some t) d.nameF d.returnsF d.idxF d.argsF

/-- Replace the name (models the object spread with a name override used by
createProxyObject). -/
def FunctionDescriptor.setName (d : FunctionDescriptor) (n : String) : FunctionDescriptor :=
  .mk d.dtype (some n) d.returnsF d.idxF d.argsF

/-- A bare descriptor carrying only a name (the object literal with just a
name field that createProxyFunction builds from a plain string). -/
def bareNamed (n : String) : FunctionDescriptor :=
  .mk none (some n) none none []

/-- A proxied-property descriptor: optional getter and setter function
descriptors plus the getOnly flag. -/
structure PropertyDescr where
  pname : String
  getD : Option FunctionDescriptor := none
  setD : Option FunctionDescriptor := none
  getOnly : Bool := false

/-- An entry of a descriptor list that may be given as a plain property name
or as a full function descriptor. -/
abbrev NameOrFD := String ⊕ FunctionDescriptor

/-- An entry of the proxiedProperties list: a plain name or a property
descriptor. -/
abbrev NameOrPD := String ⊕ PropertyDescr

/-- An object descriptor. -/
structure ObjectDescriptor where
  dtype : Option String := none
  functionsD : List NameOrFD := []
  readonlyPropertiesD : List NameOrFD := []
  proxiedPropertiesD : List NameOrPD := []
  eventsD : List NameOrFD := []

/-- A class descriptor: optional ctor function descriptor, static object
descriptor and instance object descriptor, plus the classId.  The source
fields named static and instance are renamed here because instance is a Lean
keyword. -/
structure ClassDescriptor where
  dtype : Option String := none
  classIdD : Option String := none
  ctorD : Option FunctionDescriptor := none
  staticPart : Option ObjectDescriptor := none
  instancePart : Option ObjectDescriptor := none

/-- getPropName: a plain string names itself, a descriptor is named by its
name field.  Modelled from the spec and from the use sites in super-rpc.ts. -/
def getPropName : NameOrFD → String
  | .inl s => s
  | .inr d => d.nameF.getD ""

/-- Modelled from the spec: resolve a function descriptor by name from an
object descriptor.  Returns none when the name is not declared, which is what
the method_call dispatch in callTargetFunction tests for before attempting
event-pair resolution. -/
def getFunctionDescriptor (d : ObjectDescriptor) (prop : String) : Option FunctionDescriptor :=
  match d.functionsD.find? (fun e => getPropName e = prop) with
  | some (.inr fd) => some fd
  | some (.inl s) => some (bareNamed s)
  | none => none

/-- Modelled from the spec: resolve a proxied-property descriptor by name from
an object descriptor. -/
def getPropertyDescriptor (d : ObjectDescriptor) (prop : String) : Option PropertyDescr :=
  match d.proxiedPropertiesD.find?
      (fun e => (match e with | .inl s => s | .inr p => p.pname) = prop) with
  | some (.inl s) => some { pname := s }
  | some (.inr p) => some p
  | none => none

/-- Modelled from the spec: resolve an event descriptor by event name. -/
def getEventDescriptor (d : ObjectDescriptor) (evt : String) : Option FunctionDescriptor :=
  match d.eventsD.find? (fun e => getPropName e = evt) with
  | some (.inr fd) => some fd
  | some (.inl s) => some (bareNamed s)
  | none => none

/-- Modelled from the spec: resolve an argument sub-descriptor by positional
index; arguments may be declared sparsely by an idx field, otherwise the
position in the list is used. -/
def getArgumentDescriptor (fd : Option FunctionDescriptor) (i : Nat) : Option FunctionDescriptor :=
  match fd with
  | none => none
  | some f =>
    match f.argsF.find? (fun a => a.idxF = some i) with
    | some a => some a
    | none =>
      match f.argsF.get? i with
      | some a => if a.idxF.isSome then none else some a
      | none => none

/-! ## Channel capabilities and call actions -/

/-- Which transports an RPCChannel provides (presence of the sendSync and
sendAsync functions). -/
structure ChannelCaps where
  hasSendSync : Bool
  hasSendAsync : Bool
deriving DecidableEq, Repr

/-- The action tag of a call message. -/
inductive CallAction where
  | fn_call
  | ctor_call
  | method_call
  | prop_get
  | prop_set
deriving DecidableEq, Repr

/-! ## Call-mode selection (createProxyFunction, super-rpc.ts lines 451-469)

The callType computation of createProxyFunction, factored out verbatim:
  let callType = descriptor?.returns || defaultCallType;
  if (callType === 'async' && !replyChannel.sendAsync) callType = 'sync';
  if (callType === 'sync' && !replyChannel.sendSync) callType = 'async';
A missing returns field is falsy, so Option.getD models the || default. -/
def chooseCallType (declared : Option FunctionReturnBehavior)
    (defaultCallType : FunctionReturnBehavior) (replyChannel : ChannelCaps) :
    FunctionReturnBehavior :=
  let c := declared.getD defaultCallType
  let c := if c = .async && !replyChannel.hasSendAsync then .sync else c
  if c = .sync && !replyChannel.hasSendSync then .async else c

/-- The call-mode rules exactly as the claim words them: start from the
declared return behavior (default async); if the result is async and the
channel has no sendAsync it becomes sync; if the result of that is sync and
the channel has no sendSync it becomes async; a declared void is never
re-mapped.  Stated separately from chooseCallType, which is transcribed from
the code, so that the two can be compared. -/
def claimC2CallMode (declared : Option FunctionReturnBehavior)
    (defaultCallType : FunctionReturnBehavior) (replyChannel : ChannelCaps) :
    FunctionReturnBehavior :=
  match declared.getD defaultCallType with
  | .void => .void
  | .async =>
    if !replyChannel.hasSendAsync then
      -- downgraded to sync; the second rule may upgrade it back
      if !replyChannel.hasSendSync then .async else .sync
    else .async
  | .sync =>
    if !replyChannel.hasSendSync then .async else .sync

/-! ## JavaScript values and heap

Values are scalars or references into an explicit heap; object identity is
address equality.  The symbol-keyed stamps used by the library (hostObjectId,
proxyObjectId, classId on constructors, rpc_disposed) are modelled as extra
components of a heap object, distinct from its own enumerable string-keyed
fields (Object.keys never sees symbols). -/

/-- A JavaScript value.  undefV covers undefined; references cover objects,
functions and promises, which live in the heap. -/
inductive JSVal where
  | undefV
  | nullV
  | boolV (b : Bool)
  | numV (n : Int)
  | strV (s : String)
  | ref (a : Nat)
deriving DecidableEq, Repr

/-- The data a synthesized proxy callable closes over: the fixed objId (none
when the callable lives on a prototype and reads the id from the receiver),
the function descriptor, the action tag, the chosen call mode and the reply
channel. -/
structure ProxyFnMeta where
  objIdM : Option String
  descrM : FunctionDescriptor
  actionM : CallAction
  callTypeM : FunctionReturnBehavior
  chanM : ChannelCaps

/-- What a function object does when applied.  Host-side target functions are
modelled as pure Lean functions from arguments to a result or a thrown error
(errors are represented by their string form throughout).  Proxy callables
carry their closure data; the event-listener methods installed by
createProxyObject and the throwing constructor stub of getProxyClass are
tagged without modelling their bodies, which no claim touches. -/
inductive JSFun where
  | native (f : List JSVal → Except String JSVal)
  | proxyFn (meta : ProxyFnMeta)
  | eventMethod (isAdd : Bool)
  | ctorStub (classId : String)

/-- A pair of accessor functions installed by Object.defineProperty for a
proxied property (addresses of the getter and the optional setter).  These
are not own enumerable properties. -/
structure AccessorPair where
  getAddr : Nat
  setAddr : Option Nat

/-- A heap object.  fields are the own enumerable string-keyed properties in
insertion order (what Object.keys walks).  isFunction marks typeof function;
isPromise marks constructor === Promise; ctorClassId is the classId symbol
stamp on the constructor of the object; proxyObjId and hostObjId are the
symbol stamps of the library (none covers both absent and null, which are
equally falsy at every use site); rpcDisposed is the rpc_disposed stamp;
protoOf is the prototype installed by Object.setPrototypeOf; protoObj is the
prototype property of a function object. -/
structure JSObj where
  isFunction : Bool := false
  fnImpl : Option JSFun := none
  isPromise : Bool := false
  ctorClassId : Option String := none
  fields : List (String × JSVal) := []
  accessors : List (String × AccessorPair) := []
  proxyObjId : Option String := none
  hostObjId : Option String := none
  rpcDisposed : Bool := false
  protoOf : Option Nat := none
  protoObj : Option Nat := none

instance : Inhabited JSObj := ⟨{}⟩

/-- Truthiness of an id stamp: absent and null are falsy, and so is the empty
string; every other string is truthy. -/
def truthyId : Option String → Bool
  | none => false
  | some s => !s.isEmpty

/-- Coerce a value used as a Map key (objId fields of wire forms are strings;
anything else behaves like the undefined key, which never hits). -/
def keyOf : JSVal → String
  | .strV s => s
  | _ => "undefined"

/-- String conversion for values passed to an Error constructor. -/
def jsToString : JSVal → String
  | .strV s => s
  | .numV n => toString n
  | .boolV b => toString b
  | .nullV => "null"
  | .undefV => "undefined"
  | .ref _ => "[object Object]"

/-! ## Messages (rpc-message-types) -/

/-- A call-family message: action, callType, objId, optional prop and callId,
and the argument list. -/
structure CallMsg where
  actionC : CallAction
  callTypeC : FunctionReturnBehavior
  objIdC : String
  propC : Option String := none
  callIdC : Option String := none
  argsC : List JSVal := []

/-- An ObjectDescriptor extended with the props snapshot that travels with
descriptor exchange. -/
structure ObjectDescriptorWithProps extends ObjectDescriptor where
  propsD : Option (List (String × JSVal)) := none

/-- A wire message.  Every constructor carries the rpc_marker as a Bool (true
exactly when the marker string is present and equal to srpc). -/
inductive RpcMessage where
  | getDescriptorsM (marker : Bool)
  | descriptorsM (objects : Option (List (String × ObjectDescriptorWithProps)))
      (functions : Option (List (String × FunctionDescriptor)))
      (classes : Option (List (String × ClassDescriptor))) (marker : Bool)
  | callM (m : CallMsg) (marker : Bool)
  | fnReplyM (callTypeR : FunctionReturnBehavior) (success : Bool) (result : JSVal)
      (callIdR : Option String) (marker : Bool)
  | objDiedM (objId : String) (marker : Bool)

/-- The marker of a message (checkMarker). -/
def RpcMessage.marker : RpcMessage → Bool
  | .getDescriptorsM m => m
  | .descriptorsM _ _ _ m => m
  | .callM _ m => m
  | .fnReplyM _ _ _ _ m => m
  | .objDiedM _ m => m

/-- A record of an emitted message: true marks the synchronous transport. -/
structure EmittedMsg where
  viaSync : Bool
  msg : RpcMessage

/-! ## Service state (the SuperRPC instance) -/

/-- The mutable state of one SuperRPC endpoint together with its heap.
settledCalls logs the resolve and reject invocations performed on the pending
deferred-call callbacks (callId, success, delivered value); promiseReplies
logs the settlement replies scheduled while serializing a promise;
pendingSettlements logs async calls whose result was a promise and whose
reply will be emitted when it settles; pendingAssignments logs prop_set
assignments deferred until the received promise settles;
emitted logs every message sent. -/
structure RpcState where
  heap : List (Nat × JSObj) := []
  nextAddr : Nat := 0
  chan : ChannelCaps := ⟨true, true⟩
  hostObjects : List (String × (Nat × ObjectDescriptor)) := []
  hostFunctions : List (String × (Nat × Option FunctionDescriptor)) := []
  hostClasses : List (String × (Nat × ClassDescriptor)) := []
  proxyRegistry : List (String × Nat) := []
  proxyClasses : List (String × Nat) := []
  remoteObjectDescriptors : List (String × ObjectDescriptorWithProps) := []
  remoteFunctionDescriptors : List (String × FunctionDescriptor) := []
  remoteClassDescriptors : List (String × ClassDescriptor) := []
  asyncCallbacks : List (String × Unit) := []
  callIdCtr : Nat := 0
  genCtr : Nat := 0
  settledCalls : List (String × Bool × JSVal) := []
  promiseReplies : List String := []
  pendingSettlements : List (Option String) := []
  pendingAssignments : List (Nat × String × JSVal) := []
  emitted : List EmittedMsg := []

/-- Read a heap object (a dangling address reads as an empty object; the
embedded code never dereferences a dangling address). -/
def heapGetD (h : List (Nat × JSObj)) (a : Nat) : JSObj :=
  (alookup h a).getD default

/-- Overwrite a heap object. -/
def heapSet (st : RpcState) (a : Nat) (o : JSObj) : RpcState :=
  { st with heap := ainsert st.heap a o }

/-- Allocate a fresh heap object at the next address. -/
def allocObj (st : RpcState) (o : JSObj) : Nat × RpcState :=
  (st.nextAddr, { st with heap := ainsert st.heap st.nextAddr o, nextAddr := st.nextAddr + 1 })

/-- Read an own enumerable property (absent reads as undefined). -/
def getField (o : JSObj) (k : String) : JSVal :=
  (alookup o.fields k).getD .undefV

/-- Write an own enumerable property of the object at address a. -/
def setField (st : RpcState) (a : Nat) (k : String) (v : JSVal) : RpcState :=
  let o := heapGetD st.heap a
  heapSet st a { o with fields := ainsert o.fields k v }

/-- The objectIdGenerator dependency: a nullary function returning a fresh
unique string, modelled by a counter. -/
def genId (st : RpcState) : String × RpcState :=
  ("gid" ++ toString st.genCtr, { st with genCtr := st.genCtr + 1 })

/-- addMarker followed by channel.sendSync (a missing sendSync sends
nothing). -/
def emitSync (st : RpcState) (chan : ChannelCaps) (m : RpcMessage) : RpcState :=
  if chan.hasSendSync then { st with emitted := st.emitted ++ [⟨true, m⟩] } else st

/-- addMarker followed by channel.sendAsync (a missing sendAsync sends
nothing). -/
def emitAsync (st : RpcState) (chan : ChannelCaps) (m : RpcMessage) : RpcState :=
  if chan.hasSendAsync then { st with emitted := st.emitted ++ [⟨false, m⟩] } else st

/-- sendSyncIfPossible. -/
def emitSyncIfPossible (st : RpcState) (chan : ChannelCaps) (m : RpcMessage) : RpcState :=
  if chan.hasSendSync then emitSync st chan m else emitAsync st chan m

/-- sendAsyncIfPossible. -/
def emitAsyncIfPossible (st : RpcState) (chan : ChannelCaps) (m : RpcMessage) : RpcState :=
  if chan.hasSendAsync then emitAsync st chan m else emitSync st chan m

/-- sendObjectDied: emit the obj_died notice, preferring the async transport. -/
def sendObjectDied (st : RpcState) (objId : String) (chan : ChannelCaps) : RpcState :=
  emitAsyncIfPossible st chan (.objDiedM objId true)

/-! ## Host registration (super-rpc.ts lines 109-161 and 603-620) -/

/-- registerHostObject: stamp the descriptor type, stamp the target with its
id and install the entry. -/
def registerHostObject (st : RpcState) (objId : String) (target : Nat)
    (descriptor : ObjectDescriptor) : RpcState :=
  let descriptor := { descriptor with dtype := some "object" }
  let o := heapGetD st.heap target
  let st := heapSet st target { o with hostObjId := some objId }
  { st with hostObjects := ainsert st.hostObjects objId (target, descriptor) }

/-- registerHostFunction: stamp the descriptor type (the descriptor parameter
defaults to an empty object in the source), stamp the target and install the
entry. -/
def registerHostFunction (st : RpcState) (objId : String) (target : Nat)
    (descriptor : Option FunctionDescriptor) : RpcState :=
  let descriptor := some ((descriptor.getD (.mk none none none none [])).setDtype "function")
  let o := heapGetD st.heap target
  let st := heapSet st target { o with hostObjId := some objId }
  { st with hostFunctions := ainsert st.hostFunctions objId (target, descriptor) }

/-- registerHostClass: stamp the descriptor, register the constructor as a
host object when a static part is declared and as a host function when a ctor
part is declared, stamp the constructor with the classId symbol and install
the class entry. -/
def registerHostClass (st : RpcState) (classId : String) (classCtor : Nat)
    (descriptor : ClassDescriptor) : RpcState :=
  let descriptor := { descriptor with dtype := some "class", classIdD := some classId }
  let st := match descriptor.staticPart with
    | some s => registerHostObject st classId classCtor s
    | none => st
  let st := match descriptor.ctorD with
    | some c => registerHostFunction st classId classCtor (some c)
    | none => st
  let o := heapGetD st.heap classCtor
  let st := heapSet st classCtor { o with ctorClassId := some classId }
  { st with hostClasses := ainsert st.hostClasses classId (classCtor, descriptor) }

/-- registerLocalObj: reuse the id stamped on the object when it is still
registered, otherwise generate a fresh id, install the entry and stamp the
object. -/
def registerLocalObj (st : RpcState) (a : Nat) (descriptor : ObjectDescriptor) :
    String × RpcState :=
  let o := heapGetD st.heap a
  let present := match o.hostObjId with
    | some i => (alookup st.hostObjects i).isSome
    | none => false
  if present then (o.hostObjId.getD "", st)
  else
    let (objId, st) := genId st
    let st := { st with hostObjects := ainsert st.hostObjects objId (a, descriptor) }
    let o := heapGetD st.heap a
    let st := heapSet st a { o with hostObjId := some objId }
    (objId, st)

/-- registerLocalFunc: like registerLocalObj but against the host-function
registry. -/
def registerLocalFunc (st : RpcState) (a : Nat) (descriptor : Option FunctionDescriptor) :
    String × RpcState :=
  let o := heapGetD st.heap a
  let present := match o.hostObjId with
    | some i => (alookup st.hostFunctions i).isSome
    | none => false
  if present then (o.hostObjId.getD "", st)
  else
    let (objId, st) := genId st
    let st := { st with hostFunctions := ainsert st.hostFunctions objId (a, descriptor) }
    let o := heapGetD st.heap a
    let st := heapSet st a { o with hostObjId := some objId }
    (objId, st)

/-! ## Serialization (processBeforeSerialization, super-rpc.ts lines 622-669)

The source recurses into nested objects without bound, so the embedding takes
an explicit fuel parameter; none is returned exactly when the fuel runs out.
The body at fuel + 1 is the non-recursive step pbsStep applied to the
function at fuel. -/

/-- The in-place walk of the plain-object branch: for each key of the
snapshot taken by Object.keys, read the current property value, serialize it
and write the wire form back into the same object. -/
def pbsWalk (rec : RpcState → ChannelCaps → JSVal → Option FunctionDescriptor →
      Option (JSVal × RpcState))
    (st : RpcState) (replyChannel : ChannelCaps) (a : Nat) :
    List String → Option RpcState
  | [] => some st
  | k :: keys =>
    match rec st replyChannel (getField (heapGetD st.heap a) k) none with
    | none => none
    | some (w, st) => pbsWalk rec (setField st a k w) replyChannel a keys

/-- The readonly-property snapshot of the class-instance branch: serialize
each listed property of the instance into a fresh props record. -/
def pbsProps (rec : RpcState → ChannelCaps → JSVal → Option FunctionDescriptor →
      Option (JSVal × RpcState))
    (st : RpcState) (replyChannel : ChannelCaps) (a : Nat) :
    List NameOrFD → List (String × JSVal) → Option (List (String × JSVal) × RpcState)
  | [], acc => some (acc, st)
  | p :: rest, acc =>
    let propName := getPropName p
    match rec st replyChannel (getField (heapGetD st.heap a) propName) none with
    | none => none
    | some (w, st) => pbsProps rec st replyChannel a rest (ainsert acc propName w)

/-- One step of processBeforeSerialization, parameterized by the recursive
call used for nested values. -/
def pbsStep (rec : RpcState → ChannelCaps → JSVal → Option FunctionDescriptor →
      Option (JSVal × RpcState))
    (st : RpcState) (replyChannel : ChannelCaps) (v : JSVal)
    (descriptor : Option FunctionDescriptor) : Option (JSVal × RpcState) :=
  match v with
  | .ref a =>
    let o := heapGetD st.heap a
    -- if (obj?.[proxyObjectId]) return { _rpc_type: 'hostObject', objId: obj[proxyObjectId] }
    if truthyId o.proxyObjId then
      let (wa, st) := allocObj st
        { fields := [("_rpc_type", .strV "hostObject"),
                     ("objId", .strV (o.proxyObjId.getD ""))] }
      some (.ref wa, st)
    else if o.isFunction then
      -- case 'function': register locally and emit the function tag
      let (objId, st) := registerLocalFunc st a descriptor
      let (wa, st) := allocObj st
        { fields := [("_rpc_type", .strV "function"), ("objId", .strV objId)] }
      some (.ref wa, st)
    else if o.isPromise then
      -- special case for Promise: when the promise is not registered yet, its
      -- settlement will emit an fn_reply keyed by the object id; then register
      -- and emit the pseudo-class tag
      let already := match o.hostObjId with
        | some i => (alookup st.hostObjects i).isSome
        | none => false
      let (objId, st) := registerLocalObj st a {}
      let st := if already then st else { st with promiseReplies := st.promiseReplies ++ [objId] }
      let (wa, st) := allocObj st
        { fields := [("_rpc_type", .strV "object"), ("objId", .strV objId),
                     ("classId", .strV "Promise")] }
      some (.ref wa, st)
    else
      match (match o.ctorClassId with
             | some cid => alookup st.hostClasses cid
             | none => none) with
      | some entry =>
        -- instance of a registered host class: register, snapshot the readonly
        -- properties recursively and emit the object tag
        let instanceDescr := entry.2.instancePart.getD {}
        let (objId, st) := registerLocalObj st a instanceDescr
        match pbsProps rec st replyChannel a (instanceDescr.readonlyPropertiesD) [] with
        | none => none
        | some (props, st) =>
          let (pa, st) := allocObj st { fields := props }
          let (wa, st) := allocObj st
            { fields := [("_rpc_type", .strV "object"),
                         ("classId", match entry.2.classIdD with
                                     | some c => .strV c
                                     | none => .undefV),
                         ("props", .ref pa), ("objId", .strV objId)] }
          some (.ref wa, st)
      | none =>
        -- plain object: walk the own enumerable keys in place and return the
        -- very same reference
        match pbsWalk rec st replyChannel a (o.fields.map Prod.fst) with
        | none => none
        | some st => some (.ref a, st)
  | _ => some (v, st)

/-- processBeforeSerialization with fuel. -/
def processBeforeSerialization : Nat → RpcState → ChannelCaps → JSVal →
    Option FunctionDescriptor → Option (JSVal × RpcState)
  | 0, _, _, _, _ => none
  | fuel + 1, st, replyChannel, v, descriptor =>
    pbsStep (fun st c v d => processBeforeSerialization fuel st c v d) st replyChannel v descriptor

/-- serializeFunctionArgs: serialize each argument with its argument
descriptor, threading the state left to right. -/
def serializeFunctionArgs (fuel : Nat) (st : RpcState) (func : Option FunctionDescriptor)
    (replyChannel : ChannelCaps) : List JSVal → Nat → Option (List JSVal × RpcState)
  | [], _ => some ([], st)
  | v :: rest, idx =>
    match processBeforeSerialization fuel st replyChannel v (getArgumentDescriptor func idx) with
    | none => none
    | some (w, st) =>
      match serializeFunctionArgs fuel st func replyChannel rest (idx + 1) with
      | none => none
      | some (ws, st) => some (w :: ws, st)

/-! ## Outcomes of stateful computations that may throw

JavaScript exceptions are represented by their string form; a thrown outcome
carries the state reached before the throw (mutations performed before an
exception persist).  nofuel marks exhaustion of the recursion bound and is
distinct from every outcome of the source program. -/

/-- Outcome of a stateful computation. -/
inductive Res (α : Type) where
  | ok (v : α) (st : RpcState)
  | thrown (msg : String) (st : RpcState)
  | nofuel

/-! ## Proxy callables (super-rpc.ts lines 389-469)

Creating a proxy callable allocates a function object carrying its closure
data; the behavior of the three callable shapes is modelled separately by
invokeProxyFn below. -/

/-- createVoidProxyFunction: allocate the void-mode callable. -/
def createVoidProxyFunction (st : RpcState) (objId : Option String)
    (func : FunctionDescriptor) (action : CallAction) (replyChannel : ChannelCaps) :
    Nat × RpcState :=
  allocObj st { isFunction := true,
                fnImpl := some (.proxyFn ⟨objId, func, action, .void, replyChannel⟩) }

/-- createSyncProxyFunction: allocate the sync-mode callable. -/
def createSyncProxyFunction (st : RpcState) (objId : Option String)
    (func : FunctionDescriptor) (action : CallAction) (replyChannel : ChannelCaps) :
    Nat × RpcState :=
  allocObj st { isFunction := true,
                fnImpl := some (.proxyFn ⟨objId, func, action, .sync, replyChannel⟩) }

/-- createAsyncProxyFunction: allocate the async-mode callable. -/
def createAsyncProxyFunction (st : RpcState) (objId : Option String)
    (func : FunctionDescriptor) (action : CallAction) (replyChannel : ChannelCaps) :
    Nat × RpcState :=
  allocObj st { isFunction := true,
                fnImpl := some (.proxyFn ⟨objId, func, action, .async, replyChannel⟩) }

/-- createProxyFunction: normalize the prop argument into a descriptor (a
plain string becomes a bare named descriptor; an absent prop yields a
descriptor with no name, matching the object literal with an undefined name
that the source builds), choose the call mode and create the callable of that
shape. -/
def createProxyFunction (st : RpcState) (objId : Option String) (prop : Option NameOrFD)
    (action : CallAction) (defaultCallType : FunctionReturnBehavior)
    (replyChannel : ChannelCaps) : Nat × RpcState :=
  let descriptor := match prop with
    | some (.inr d) => d
    | some (.inl s) => bareNamed s
    | none => .mk none none none none []
  match chooseCallType descriptor.returnsF defaultCallType replyChannel with
  | .void => createVoidProxyFunction st objId descriptor action replyChannel
  | .sync => createSyncProxyFunction st objId descriptor action replyChannel
  | .async => createAsyncProxyFunction st objId descriptor action replyChannel

/-- Object spread of an optional getter or setter descriptor with the
property name overriding (the literal written as spread of descr.get plus a
name field in createProxyObject). -/
def spreadWithName (d : Option FunctionDescriptor) (n : String) : FunctionDescriptor :=
  match d with
  | some f => f.setName n
  | none => bareNamed n

/-- ProxyObjectRegistry.register as seen from the service state: stamp the
object as not disposed and install the weak registry entry.  The per-object
dispose closure and finalization token are modelled separately (see the
ProxyObjectRegistryModel namespace). -/
def proxyRegister (st : RpcState) (objId : String) (a : Nat) : RpcState :=
  let o := heapGetD st.heap a
  let st := heapSet st a { o with rpcDisposed := false }
  { st with proxyRegistry := ainsert st.proxyRegistry objId a }

/-- createProxyObject: decorate the object at address a with the props
snapshot, proxy methods for the declared functions, accessor pairs for the
proxied properties, the event-listener methods, and the proxyObjectId stamp
(null when the members live on a prototype). -/
def createProxyObject (st : RpcState) (objId : Option String)
    (descriptor : Option ObjectDescriptorWithProps) (a : Nat) : RpcState :=
  -- Object.assign(obj, descriptor?.props)
  let props := match descriptor with
    | some d => d.propsD.getD []
    | none => []
  let st := props.foldl (fun st kv => setField st a kv.1 kv.2) st
  -- for (const prop of descriptor?.functions ?? [])
  --   obj[getPropName(prop)] = this.createProxyFunction(objId, prop, 'method_call')
  let fns := match descriptor with
    | some d => d.functionsD
    | none => []
  let st := fns.foldl (fun st prop =>
    let (fa, st) := createProxyFunction st objId (some prop) .method_call .async st.chan
    setField st a (getPropName prop) (.ref fa)) st
  -- const setterCallType = this.channel.sendSync ? 'sync' : 'void'
  let setterCallType : FunctionReturnBehavior := if st.chan.hasSendSync then .sync else .void
  -- proxied properties become accessor pairs via Object.defineProperty
  let pps := match descriptor with
    | some d => d.proxiedPropertiesD
    | none => []
  let st := pps.foldl (fun st prop =>
    let descr : PropertyDescr := match prop with
      | .inl s => { pname := s }
      | .inr p => p
    let (ga, st) := createProxyFunction st objId
      (some (.inr (spreadWithName descr.getD descr.pname))) .prop_get .sync st.chan
    let (sa, st) :=
      if descr.getOnly then (none, st)
      else
        let (sa, st) := createProxyFunction st objId
          (some (.inr (spreadWithName descr.setD descr.pname))) .prop_set setterCallType st.chan
        (some sa, st)
    let o := heapGetD st.heap a
    heapSet st a { o with accessors := ainsert o.accessors descr.pname ⟨ga, sa⟩ }) st
  -- events install the addEventListener and removeEventListener methods; their
  -- bodies (event-name check and per-event lazily created method_call proxies)
  -- are opaque event-method functions here, no claim invokes them
  let evts := match descriptor with
    | some d => d.eventsD
    | none => []
  let st :=
    if evts.length > 0 then
      let (ada, st) := allocObj st { isFunction := true, fnImpl := some (.eventMethod true) }
      let st := setField st a "addEventListener" (.ref ada)
      let (rma, st) := allocObj st { isFunction := true, fnImpl := some (.eventMethod false) }
      setField st a "removeEventListener" (.ref rma)
    else st
  -- obj[proxyObjectId] = objId
  let o := heapGetD st.heap a
  heapSet st a { o with proxyObjId := objId }

/-- Tests whether a received descriptor is a function descriptor (the
isFunctionDescriptor type guard, modelled as the type tag test). -/
def isFunctionDescriptorW (d : Option ObjectDescriptorWithProps) : Bool :=
  match d with
  | some o => o.dtype = some "function"
  | none => false

/-- getProxyClass: return the cached proxy constructor or synthesize it: a
sync ctor_call proxy when the class declares a ctor (otherwise a throwing
stub), a prototype decorated with the instance members under a null objId,
and static members (with the received props snapshot) on the constructor
itself. -/
def getProxyClass (st : RpcState) (classId : String) : Res Nat :=
  match alookup st.proxyClasses classId with
  | some clazz => .ok clazz st
  | none =>
    match alookup st.remoteClassDescriptors classId with
    | none => .thrown ("No class registered with ID " ++ classId) st
    | some descriptor =>
      let (clazz, st) := match descriptor.ctorD with
        | some c => createProxyFunction st (some classId) (some (.inr c)) .ctor_call .sync st.chan
        | none => allocObj st { isFunction := true, fnImpl := some (.ctorStub classId) }
      -- a function object owns its prototype object
      let (protoAddr, st) := allocObj st {}
      let st :=
        let o := heapGetD st.heap clazz
        heapSet st clazz { o with protoObj := some protoAddr }
      let st := createProxyObject st none
        (descriptor.instancePart.map (fun i => { toObjectDescriptor := i })) protoAddr
      let staticDescr : ObjectDescriptorWithProps := match descriptor.staticPart with
        | some s => { toObjectDescriptor := s }
        | none => {}
      let objDescr := alookup st.remoteObjectDescriptors classId
      let staticDescr :=
        if isFunctionDescriptorW objDescr then staticDescr
        else { staticDescr with propsD := objDescr.bind (fun d => d.propsD) }
      let st := createProxyObject st (some classId) (some staticDescr) clazz
      let st := { st with proxyClasses := ainsert st.proxyClasses classId clazz }
      .ok clazz st

/-- getProxyObject: return the live registered proxy if there is one,
otherwise materialize one from the remote object descriptor and register it. -/
def getProxyObject (st : RpcState) (objId : String) : Res JSVal :=
  match alookup st.proxyRegistry objId with
  | some a => .ok (.ref a) st
  | none =>
    match alookup st.remoteObjectDescriptors objId with
    | none => .thrown ("No object registered with ID " ++ objId) st
    | some descriptor =>
      let (a, st) := allocObj st {}
      let st := createProxyObject st (some objId) (some descriptor) a
      let st := proxyRegister st objId a
      .ok (.ref a) st

/-- getProxyFunction: return the live registered proxy if there is one,
otherwise materialize a fn_call proxy from the remote function descriptor and
register it. -/
def getProxyFunction (st : RpcState) (objId : String) : Res JSVal :=
  match alookup st.proxyRegistry objId with
  | some a => .ok (.ref a) st
  | none =>
    match alookup st.remoteFunctionDescriptors objId with
    | none => .thrown ("No function registered with ID " ++ objId) st
    | some descriptor =>
      let (a, st) := createProxyFunction st (some objId) (some (.inr descriptor)) .fn_call .async st.chan
      let st := proxyRegister st objId a
      .ok (.ref a) st

/-- getOrCreateProxyInstance: return the live registered proxy for the id if
there is one; otherwise build the instance from the received props (the
Promise pseudo-class builds a fresh deferred promise whose callbacks are
stashed under the object id), stamp it, link it to the proxy class prototype
and register it with a dispose hook that emits obj_died. -/
def getOrCreateProxyInstance (st : RpcState) (objId : String) (classId : JSVal)
    (props : JSVal) (replyChannel : ChannelCaps) : Res JSVal :=
  match alookup st.proxyRegistry objId with
  | some a => .ok (.ref a) st
  | none =>
    -- obj = props ?? {}  (the codec only ever puts an object or nothing here)
    let (a, st) := match props with
      | .ref p => (p, st)
      | _ => allocObj st {}
    if classId = .strV "Promise" then
      let (pa, st) := allocObj st { isPromise := true }
      let st := { st with asyncCallbacks := ainsert st.asyncCallbacks objId () }
      let st := proxyRegister st objId pa
      .ok (.ref pa) st
    else
      let o := heapGetD st.heap a
      let st := heapSet st a { o with proxyObjId := some objId }
      match getProxyClass st (keyOf classId) with
      | .nofuel => .nofuel
      | .thrown e st => .thrown e st
      | .ok clazz st =>
        let o := heapGetD st.heap a
        let st := heapSet st a { o with protoOf := (heapGetD st.heap clazz).protoObj }
        let st := proxyRegister st objId a
        .ok (.ref a) st

/-- getOrCreateProxyFunction: return the live registered proxy for the id if
there is one; otherwise stamp the descriptor type, create an async fn_call
proxy, stamp it with the proxy id and register it with a dispose hook that
emits obj_died. -/
def getOrCreateProxyFunction (st : RpcState) (objId : String) (replyChannel : ChannelCaps)
    (descriptor : Option FunctionDescriptor) : Res JSVal :=
  match alookup st.proxyRegistry objId with
  | some a => .ok (.ref a) st
  | none =>
    let descriptor := descriptor.map (fun d => d.setDtype "function")
    let (a, st) := createProxyFunction st (some objId) (descriptor.map .inr) .fn_call .async replyChannel
    let o := heapGetD st.heap a
    let st := heapSet st a { o with proxyObjId := some objId }
    let st := proxyRegister st objId a
    .ok (.ref a) st

/-! ## Deserialization (processAfterDeserialization, super-rpc.ts 671-691)

The descriptor parameter of the source has the union type of all descriptor
shapes and is cast at the use sites; the DescrAny sum mirrors that. -/

/-- A descriptor of any shape, as passed to processAfterDeserialization. -/
inductive DescrAny where
  | fnD (d : FunctionDescriptor)
  | objD (d : ObjectDescriptor)
  | propD (d : PropertyDescr)

/-- The cast of a descriptor to a function descriptor: only a real function
descriptor carries the fields read downstream. -/
def DescrAny.asFn : Option DescrAny → Option FunctionDescriptor
  | some (.fnD d) => some d
  | _ => none

/-- getPropertyDescriptor applied through the cast to an object descriptor. -/
def getPropertyDescriptorAny (d : Option DescrAny) (key : String) : Option PropertyDescr :=
  match d with
  | some (.objD o) => getPropertyDescriptor o key
  | _ => none

/-- The in-place walk of the untagged-object branch of deserialization: each
own enumerable property is rewritten with its deserialized form, recursing
with the matching child property descriptor. -/
def padWalk (rec : RpcState → ChannelCaps → JSVal → Option DescrAny → Res JSVal)
    (st : RpcState) (replyChannel : ChannelCaps) (a : Nat) (descriptor : Option DescrAny) :
    List String → Res Unit
  | [] => .ok () st
  | k :: keys =>
    match rec st replyChannel (getField (heapGetD st.heap a) k)
        ((getPropertyDescriptorAny descriptor k).map DescrAny.propD) with
    | .nofuel => .nofuel
    | .thrown e st => .thrown e st
    | .ok w st => padWalk rec (setField st a k w) replyChannel a descriptor keys

/-- One step of processAfterDeserialization, parameterized by the recursive
call used for nested values. -/
def padStep (rec : RpcState → ChannelCaps → JSVal → Option DescrAny → Res JSVal)
    (st : RpcState) (replyChannel : ChannelCaps) (v : JSVal)
    (descriptor : Option DescrAny) : Res JSVal :=
  match v with
  | .ref a =>
    let o := heapGetD st.heap a
    -- if (typeof obj !== 'object' || !obj) return obj
    if o.isFunction then .ok v st
    else if getField o "_rpc_type" = .strV "object" then
      getOrCreateProxyInstance st (keyOf (getField o "objId")) (getField o "classId")
        (getField o "props") replyChannel
    else if getField o "_rpc_type" = .strV "function" then
      getOrCreateProxyFunction st (keyOf (getField o "objId")) replyChannel
        (DescrAny.asFn descriptor)
    else if getField o "_rpc_type" = .strV "hostObject" then
      .ok (match alookup st.hostObjects (keyOf (getField o "objId")) with
           | some entry => .ref entry.1
           | none => .undefV) st
    else
      match padWalk rec st replyChannel a descriptor (o.fields.map Prod.fst) with
      | .nofuel => .nofuel
      | .thrown e st => .thrown e st
      | .ok _ st => .ok (.ref a) st
  | _ => .ok v st

/-- processAfterDeserialization with fuel. -/
def processAfterDeserialization : Nat → RpcState → ChannelCaps → JSVal →
    Option DescrAny → Res JSVal
  | 0, _, _, _, _ => .nofuel
  | fuel + 1, st, replyChannel, v, descriptor =>
    padStep (fun st c v d => processAfterDeserialization fuel st c v d) st replyChannel v descriptor

/-- deserializeFunctionArgs: deserialize each argument with its argument
descriptor, threading the state left to right. -/
def deserializeFunctionArgs (fuel : Nat) (st : RpcState) (func : Option FunctionDescriptor)
    (replyChannel : ChannelCaps) : List JSVal → Nat → Res (List JSVal)
  | [], _ => .ok [] st
  | v :: rest, idx =>
    match processAfterDeserialization fuel st replyChannel v
        ((getArgumentDescriptor func idx).map DescrAny.fnD) with
    | .nofuel => .nofuel
    | .thrown e st => .thrown e st
    | .ok w st =>
      match deserializeFunctionArgs fuel st func replyChannel rest (idx + 1) with
      | .nofuel => .nofuel
      | .thrown e st => .thrown e st
      | .ok ws st => .ok (w :: ws) st

/-! ## Host-side call dispatch (callTargetFunction, super-rpc.ts 263-338) -/

/-- Application of a host-side target function.  Host targets are modelled by
pure native behaviors; applying anything else (a non-function or a synthetic
callable that crossed back) is outside every claim and reported as a model
error. -/
def applyFn (st : RpcState) (a : Nat) (args : List JSVal) : Res JSVal :=
  match (heapGetD st.heap a).fnImpl with
  | some (.native f) =>
    match f args with
    | .ok v => .ok v st
    | .error e => .thrown e st
  | _ => .thrown "model error: target is not a native function" st

/-- Tests whether a value is a reference to a promise
(value?.constructor === Promise). -/
def isPromiseRef (st : RpcState) (v : JSVal) : Bool :=
  match v with
  | .ref a => (heapGetD st.heap a).isPromise
  | _ => false

/-- The try-block of callTargetFunction: resolve the host entry for the
action, dispatch on the action and produce the raw result.  Thrown errors
carry their string form. -/
def callCompute (fuel : Nat) (st : RpcState) (msg : CallMsg) (replyChannel : ChannelCaps) :
    Res JSVal :=
  match msg.actionC with
  | .prop_get =>
    match alookup st.hostObjects msg.objIdC with
    | none => .thrown ("No object found with ID " ++ msg.objIdC) st
    | some entry =>
      .ok (getField (heapGetD st.heap entry.1) (msg.propC.getD "undefined")) st
  | .prop_set =>
    match alookup st.hostObjects msg.objIdC with
    | none => .thrown ("No object found with ID " ++ msg.objIdC) st
    | some entry =>
      let prop := msg.propC.getD "undefined"
      let descr := getPropertyDescriptor entry.2 prop
      -- deserialize with the setter's first argument descriptor
      match processAfterDeserialization fuel st replyChannel (msg.argsC.headD .undefV)
          ((((descr.bind PropertyDescr.setD).map FunctionDescriptor.argsF).bind
              (fun l => l.get? 0)).map DescrAny.fnD) with
      | .nofuel => .nofuel
      | .thrown e st => .thrown e st
      | .ok r st =>
        -- special case for when the property getter is async and the setter
        -- gets a Promise
        if isPromiseRef st r &&
            (decide (((descr.bind PropertyDescr.getD).bind FunctionDescriptor.returnsF)
                = some .async) || !replyChannel.hasSendSync) then
          .ok .undefV
            { st with pendingAssignments := st.pendingAssignments ++ [(entry.1, prop, r)] }
        else
          .ok .undefV (setField st entry.1 prop r)
  | .method_call =>
    match alookup st.hostObjects msg.objIdC with
    | none => .thrown ("No object found with ID " ++ msg.objIdC) st
    | some entry =>
      let target0 := entry.1
      let prop := msg.propC.getD "undefined"
      let fdescr := getFunctionDescriptor entry.2 prop
      let notAFunction : Res JSVal :=
        .thrown ("Property " ++ prop ++ " is not a function on object " ++ msg.objIdC) st
      if fdescr.isNone && getField (heapGetD st.heap target0) prop = .undefV then
        -- event mapping: add_<evt> and remove_<evt> are rewritten to the
        -- addEventListener and removeEventListener members
        let parts := prop.splitOn "_"
        let addOrRemove := parts.headD ""
        let eventName := (parts.get? 1).getD ""
        if !eventName.isEmpty && (addOrRemove = "add" || addOrRemove = "remove") then
          match getField (heapGetD st.heap target0) (addOrRemove ++ "EventListener") with
          | .ref la =>
            if (heapGetD st.heap la).isFunction then
              -- the source resolves the event descriptor against the already
              -- reassigned (hence undefined) function descriptor, so the
              -- listener arguments are deserialized with no descriptor
              match deserializeFunctionArgs fuel st none replyChannel msg.argsC 0 with
              | .nofuel => .nofuel
              | .thrown e st => .thrown e st
              | .ok dargs st => applyFn st la (.strV eventName :: dargs)
            else notAFunction
          | _ => notAFunction
        else notAFunction
      else
        match getField (heapGetD st.heap target0) prop with
        | .ref fa =>
          if (heapGetD st.heap fa).isFunction then
            match deserializeFunctionArgs fuel st fdescr replyChannel msg.argsC 0 with
            | .nofuel => .nofuel
            | .thrown e st => .thrown e st
            | .ok dargs st => applyFn st fa dargs
          else notAFunction
        | _ => notAFunction
  | .fn_call =>
    match alookup st.hostFunctions msg.objIdC with
    | none => .thrown ("No object found with ID " ++ msg.objIdC) st
    | some entry =>
      match deserializeFunctionArgs fuel st entry.2 replyChannel msg.argsC 0 with
      | .nofuel => .nofuel
      | .thrown e st => .thrown e st
      | .ok dargs st => applyFn st entry.1 dargs
  | .ctor_call =>
    match alookup st.hostFunctions msg.objIdC with
    | none => .thrown ("No object found with ID " ++ msg.objIdC) st
    | some entry =>
      match deserializeFunctionArgs fuel st entry.2 replyChannel msg.argsC 0 with
      | .nofuel => .nofuel
      | .thrown e st => .thrown e st
      | .ok dargs st =>
        -- construction is modelled as application of the native behavior
        applyFn st entry.1 dargs

/-- callTargetFunction: run the try-block, then report the result or the
captured error on the reply path of the declared call mode.  In async mode a
promise result defers the reply to its settlement (logged as a pending
settlement); any other result is serialized and the success reply emitted; a
synchronous throw emits the failure reply at once.  Void calls never reply. -/
def callTargetFunction (fuel : Nat) (st : RpcState) (msg : CallMsg)
    (replyChannel : ChannelCaps) : Option RpcState :=
  match callCompute fuel st msg replyChannel with
  | .nofuel => none
  | .thrown e st =>
    -- catch: success = false, result = err.toString()
    match msg.callTypeC with
    | .sync => some (emitSync st replyChannel (.fnReplyM .sync false (.strV e) none true))
    | .async => some (emitAsync st replyChannel (.fnReplyM .async false (.strV e) msg.callIdC true))
    | .void => some st
  | .ok r st =>
    match msg.callTypeC with
    | .async =>
      if isPromiseRef st r then
        some { st with pendingSettlements := st.pendingSettlements ++ [msg.callIdC] }
      else
        match processBeforeSerialization fuel st replyChannel r none with
        | none => none
        | some (w, st) =>
          some (emitAsync st replyChannel (.fnReplyM .async true w msg.callIdC true))
    | .sync =>
      match processBeforeSerialization fuel st replyChannel r none with
      | none => none
      | some (w, st) =>
        some (emitSync st replyChannel (.fnReplyM .sync true w none true))
    | .void => some st

/-! ## Descriptor exchange (super-rpc.ts 180-235) -/

/-- getLocalDescriptors over the host-object registry, including the readonly
property snapshot (the snapshot indexes the target directly with the listed
entry).  The processObjectDescriptor hook is modelled from the spec as the
identity on the shipped copy. -/
def getLocalObjectDescriptors (st : RpcState) : List (String × ObjectDescriptorWithProps) :=
  st.hostObjects.map (fun kv =>
    let d := kv.2.2
    let props :=
      if d.dtype = some "object" then
        some (d.readonlyPropertiesD.map (fun p =>
          let key := match p with
            | .inl s => s
            | .inr _ => "[object Object]"
          (key, getField (heapGetD st.heap kv.2.1) key)))
      else none
    (kv.1, { toObjectDescriptor := d, propsD := props }))

/-- getLocalDescriptors over the host-function registry; entries without a
descriptor are skipped.  The processFunctionDescriptor hook is modelled from
the spec as the identity on the shipped copy. -/
def getLocalFunctionDescriptors (st : RpcState) : List (String × FunctionDescriptor) :=
  st.hostFunctions.filterMap (fun kv => kv.2.2.map (fun d => (kv.1, d)))

/-- getLocalDescriptors over the host-class registry. -/
def getLocalClassDescriptors (st : RpcState) : List (String × ClassDescriptor) :=
  st.hostClasses.map (fun kv => (kv.1, kv.2.2))

/-- sendRemoteDescriptors: push the local descriptor tables, preferring the
synchronous transport. -/
def sendRemoteDescriptors (st : RpcState) (replyChannel : ChannelCaps) : RpcState :=
  emitSyncIfPossible st replyChannel
    (.descriptorsM (some (getLocalObjectDescriptors st))
      (some (getLocalFunctionDescriptors st)) (some (getLocalClassDescriptors st)) true)

/-- setRemoteDescriptors: install whichever descriptor tables the message
carries (absent tables leave the cache untouched). -/
def setRemoteDescriptors (st : RpcState)
    (objects : Option (List (String × ObjectDescriptorWithProps)))
    (functions : Option (List (String × FunctionDescriptor)))
    (classes : Option (List (String × ClassDescriptor))) : RpcState :=
  let st := match classes with
    | some c => { st with remoteClassDescriptors := c }
    | none => st
  let st := match objects with
    | some o => { st with remoteObjectDescriptors := o }
    | none => st
  match functions with
  | some f => { st with remoteFunctionDescriptors := f }
  | none => st

/-! ## The receive callback (messageReceived, super-rpc.ts 340-378) -/

/-- messageReceived: ignore messages without the marker, serve descriptor
pulls and pushes, dispatch the call family to callTargetFunction, drop the
host-object entry on obj_died, and settle the matching deferred call on an
async fn_reply (the delivered value is the deserialized result; the pending
entry is deleted).  The resolution of the pull-mode descriptor promise is not
modelled; no claim touches it. -/
def messageReceived (fuel : Nat) (st : RpcState) (message : RpcMessage)
    (replyChannel : ChannelCaps) : Res Unit :=
  if message.marker then
    match message with
    | .getDescriptorsM _ => .ok () (sendRemoteDescriptors st replyChannel)
    | .descriptorsM o f c _ => .ok () (setRemoteDescriptors st o f c)
    | .callM m _ =>
      match callTargetFunction fuel st m replyChannel with
      | none => .nofuel
      | some st => .ok () st
    | .objDiedM objId _ =>
      .ok () { st with hostObjects := aerase st.hostObjects objId }
    | .fnReplyM ct success result callId _ =>
      if ct = .async then
        match processAfterDeserialization fuel st replyChannel result none with
        | .nofuel => .nofuel
        | .thrown e st => .thrown e st
        | .ok r st =>
          let cid := callId.getD "undefined"
          let st := match alookup st.asyncCallbacks cid with
            | some _ => { st with settledCalls := st.settledCalls ++ [(cid, success, r)] }
            | none => st
          .ok () { st with asyncCallbacks := aerase st.asyncCallbacks cid }
      else .ok () st
  else .ok () st

/-! ## Proxy-side invocation (the closures of createVoid / Sync /
AsyncProxyFunction, super-rpc.ts 389-449)

The synchronous transport is modelled by a responder parameter standing for
the value channel.sendSync returns for this one call; an absent transport
returns nothing.  The Promise constructor semantics make an executor throw
reject the created promise, which the async shape relies on. -/

/-- What channel.sendSync returned for one call: nothing (falsy), a value
without the rpc marker, or a reply envelope. -/
inductive SyncResponse where
  | noResponse
  | badMarker
  | reply (success : Bool) (result : JSVal)

/-- Outcome of invoking a proxy callable: a synchronous throw, an ordinary
return, or (for the async shape) a promise that is already rejected or still
pending under a correlation id. -/
inductive InvokeResult where
  | thrownI (msg : String) (st : RpcState)
  | retI (v : JSVal) (st : RpcState)
  | promiseRejected (msg : String) (st : RpcState)
  | promisePending (callId : String) (st : RpcState)
  | nofuelI

/-- Invoke the proxy callable at fnAddr with the given arguments.
thisProxyId is the proxyObjectId read from the receiver when the callable
lives on a prototype. -/
def invokeProxyFn (fuel : Nat) (st : RpcState) (fnAddr : Nat) (thisProxyId : Option String)
    (args : List JSVal) (responder : SyncResponse) : InvokeResult :=
  let fnObj := heapGetD st.heap fnAddr
  match fnObj.fnImpl with
  | some (.proxyFn meta) =>
    let msgObjId := (match meta.objIdM with
      | some i => some i
      | none => thisProxyId).getD "undefined"
    match meta.callTypeM with
    | .void =>
      if fnObj.rpcDisposed then .thrownI "Remote function has been disposed" st
      else
        match serializeFunctionArgs fuel st (some meta.descrM) meta.chanM args 0 with
        | none => .nofuelI
        | some (ws, st) =>
          let m : CallMsg :=
            { actionC := meta.actionM, callTypeC := .void,
              objIdC := msgObjId, propC := meta.descrM.nameF, argsC := ws }
          .retI .undefV (emitAsyncIfPossible st meta.chanM (.callM m true))
    | .sync =>
      if fnObj.rpcDisposed then .thrownI "Remote function has been disposed" st
      else
        match serializeFunctionArgs fuel st (some meta.descrM) meta.chanM args 0 with
        | none => .nofuelI
        | some (ws, st) =>
          let m : CallMsg :=
            { actionC := meta.actionM, callTypeC := .sync,
              objIdC := msgObjId, propC := meta.descrM.nameF, argsC := ws }
          let st := emitSync st meta.chanM (.callM m true)
          let response := if meta.chanM.hasSendSync then responder else .noResponse
          match response with
          | .noResponse => .thrownI "No response received" st
          | .badMarker => .thrownI "Invalid response" st
          | .reply success result =>
            if !success then .thrownI (jsToString result) st
            else
              match processAfterDeserialization fuel st meta.chanM result none with
              | .nofuel => .nofuelI
              | .thrown e st => .thrownI e st
              | .ok r st => .retI r st
    | .async =>
      -- new Promise((resolve, reject) => { if (disposed) throw ...; ... })
      if fnObj.rpcDisposed then .promiseRejected "Remote function has been disposed" st
      else
        let st := { st with callIdCtr := st.callIdCtr + 1 }
        let cid := toString st.callIdCtr
        match serializeFunctionArgs fuel st (some meta.descrM) meta.chanM args 0 with
        | none => .nofuelI
        | some (ws, st) =>
          let m : CallMsg :=
            { actionC := meta.actionM, callTypeC := .async, objIdC := msgObjId,
              callIdC := some cid, propC := meta.descrM.nameF, argsC := ws }
          let st := emitAsync st meta.chanM (.callM m true)
          let st := { st with asyncCallbacks := ainsert st.asyncCallbacks cid () }
          .promisePending cid st
  | _ => .thrownI "model error: not a proxy callable" st

/-! ## Heap well-formedness

The JavaScript runtime allocates at fresh addresses; the model mirrors that
with the nextAddr counter.  A state is well-formed when every bound address
and every address referenced from a field lies below nextAddr, so a fresh
allocation can never collide with a live object. -/

/-- Every reference inside the value lies below the bound. -/
def valBelow : JSVal → Nat → Bool
  | .ref r, n => decide (r < n)
  | _, _ => true

/-- Every field value of the object references only addresses below the
bound. -/
def objFieldsBelow (o : JSObj) (n : Nat) : Bool :=
  o.fields.all (fun kv => valBelow kv.2 n)

/-- Heap well-formedness: bound addresses and field references lie below
nextAddr. -/
def WFHeap (st : RpcState) : Bool :=
  st.heap.all (fun p => decide (p.1 < st.nextAddr) && objFieldsBelow p.2 st.nextAddr)

/-- The frame relation of the codec on the heap: addresses only move forward,
well-formedness is kept, and every object bound before is still bound with
the same list of own enumerable property keys (its values may have been
overwritten in place). -/
structure Pres (st st' : RpcState) : Prop where
  mono : st.nextAddr ≤ st'.nextAddr
  wf : WFHeap st' = true
  keep : ∀ x, (alookup st.heap x).isSome = true →
    (alookup st'.heap x).isSome = true
    ∧ (heapGetD st'.heap x).fields.map Prod.fst = (heapGetD st.heap x).fields.map Prod.fst

/-- The induction interface of the serializer: a recursive call started on a
well-formed state with a valid value succeeds only with a frame-preserving
state transition and a valid wire value. -/
def SerRecSpec (rec : RpcState → ChannelCaps → JSVal → Option FunctionDescriptor →
    Option (JSVal × RpcState)) : Prop :=
  ∀ st chan v d w st', WFHeap st = true → valBelow v st.nextAddr = true →
    rec st chan v d = some (w, st') → Pres st st' ∧ valBelow w st'.nextAddr = true

end SuperRpc

/-! ## The weak proxy registry (proxy-object-registry.ts)

A faithful model of ProxyObjectRegistry for one tracked object: the registry
map and the finalization-registry tokens on one side, and the symbol stamps
of the tracked object plus an instrumentation counter for the optional
dispose callback on the other.  The dispose closure installed by register
captures the objId and the unregister token; disposeInvoke is its body and
gcFinalize is the FinalizationRegistry firing it when the object is
collected while its token is still registered. -/

namespace ProxyObjectRegistryModel

open SuperRpc

/-- The registry Map (objId to a weak reference) and the set of tokens
currently registered in the FinalizationRegistry. -/
structure RegistryState where
  registry : List (String × Nat) := []
  finalizationTokens : List Nat := []
deriving DecidableEq, Repr

/-- The observable footprint of one registered object: its rpc_disposed stamp
and how many times the optional dispose callback has run (each run emits
obj_died in the service). -/
structure TrackedObj where
  rpcDisposedFlag : Bool := false
  disposeRuns : Nat := 0
deriving DecidableEq, Repr

/-- ProxyObjectRegistry.register: stamp the object as not disposed, install
the dispose closure (its body is disposeInvoke below), register the
finalization hook under a fresh token and store the weak reference. -/
def register (s : RegistryState) (o : TrackedObj) (objId : String) (addr : Nat)
    (token : Nat) : RegistryState × TrackedObj :=
  ({ registry := ainsert s.registry objId addr,
     finalizationTokens := s.finalizationTokens ++ [token] },
   { o with rpcDisposedFlag := false })

/-- The body of the installed dispose closure: remoteObjectDisposed (which
unregisters the finalization token and deletes the registry entry), then the
disposed stamp, then the optional dispose callback. -/
def disposeInvoke (s : RegistryState) (o : TrackedObj) (objId : String) (token : Nat)
    (hasDispose : Bool) : RegistryState × TrackedObj :=
  ({ registry := aerase s.registry objId,
     finalizationTokens := s.finalizationTokens.erase token },
   { rpcDisposedFlag := true,
     disposeRuns := o.disposeRuns + (if hasDispose then 1 else 0) })

/-- GC-driven finalization: the FinalizationRegistry fires the held dispose
closure, but only while the token is still registered. -/
def gcFinalize (s : RegistryState) (o : TrackedObj) (objId : String) (token : Nat)
    (hasDispose : Bool) : RegistryState × TrackedObj :=
  if token ∈ s.finalizationTokens then disposeInvoke s o objId token hasDispose else (s, o)

end ProxyObjectRegistryModel

/-! ## Concrete scenario states used by the closed theorems below -/

namespace SuperRpc

/-- Sender endpoint holding one proxy stamped with the peer id h1. -/
def c1Sender : RpcState :=
  { heap := [(0, { proxyObjId := some "h1" })], nextAddr := 1 }

/-- Origin endpoint holding the received hostObject wire form at address 5
and the original host target at address 7, registered under h1. -/
def c1Origin : RpcState :=
  { heap := [(5, { fields := [("_rpc_type", .strV "hostObject"), ("objId", .strV "h1")] }),
             (7, { fields := [("x", .numV 1)] })],
    nextAddr := 8,
    hostObjects := [("h1", (7, {}))] }

/-- An endpoint whose host-function registry holds a lazily auto-registered
function entry under k while no host object uses that id. -/
def c4State : RpcState :=
  { heap := [(0, { isFunction := true })], nextAddr := 1,
    hostFunctions := [("k", (0, none))],
    hostObjects := [("other", (0, {}))] }

/-- Project the state out of an outcome (the default is returned for the
fuel-out case, which the concrete scenarios never hit). -/
def resStateD (r : Res Unit) (dflt : RpcState) : RpcState :=
  match r with
  | .ok _ st => st
  | .thrown _ st => st
  | .nofuel => dflt

/-- An endpoint with one live registered proxy under id p at address 3. -/
def c5State : RpcState :=
  { heap := [(3, { proxyObjId := some "p" })], nextAddr := 4,
    proxyRegistry := [("p", 3)] }

/-- The sync call message of the error-propagation scenario (no host entry is
registered under the id, so host-side processing throws). -/
def c6MsgS : CallMsg :=
  { actionC := .fn_call, callTypeC := .sync, objIdC := "nope" }

/-- The async call message of the error-propagation scenario. -/
def c6MsgA : CallMsg :=
  { actionC := .fn_call, callTypeC := .async, objIdC := "nope", callIdC := some "9" }

/-- Closure data of a live sync proxy function. -/
def c6Meta : ProxyFnMeta :=
  { objIdM := some "f", descrM := bareNamed "f", actionM := .fn_call,
    callTypeM := .sync, chanM := ⟨true, true⟩ }

/-- Proxy endpoint holding the live sync proxy function at address 0. -/
def c6ProxySt : RpcState :=
  { heap := [(0, { isFunction := true, fnImpl := some (.proxyFn c6Meta) })], nextAddr := 1 }

/-- Origin endpoint with a pending deferred call under correlation id 9. -/
def c6OriginSt : RpcState :=
  { asyncCallbacks := [("9", ())] }

/-- Closure data of a disposed proxy callable in the given mode. -/
def c7Meta (ct : FunctionReturnBehavior) : ProxyFnMeta :=
  { objIdM := some "f", descrM := bareNamed "f", actionM := .fn_call,
    callTypeM := ct, chanM := ⟨true, true⟩ }

/-- An endpoint holding three disposed proxy callables, one per call mode. -/
def c7St : RpcState :=
  { heap := [(0, { isFunction := true, fnImpl := some (.proxyFn (c7Meta .void)),
                   rpcDisposed := true }),
             (1, { isFunction := true, fnImpl := some (.proxyFn (c7Meta .sync)),
                   rpcDisposed := true }),
             (2, { isFunction := true, fnImpl := some (.proxyFn (c7Meta .async)),
                   rpcDisposed := true })],
    nextAddr := 3 }

/-- A host object descriptor with one proxied property x whose getter is not
declared async. -/
def c8Descr : ObjectDescriptor :=
  { proxiedPropertiesD := [.inl "x"] }

/-- Host endpoint for the direct-assignment prop_set scenario: the target
object at address 0, a sync-capable channel. -/
def c8StDirect : RpcState :=
  { heap := [(0, { fields := [("x", .numV 0)] })], nextAddr := 1,
    hostObjects := [("o", (0, c8Descr))] }

/-- Host endpoint for the deferred-assignment prop_set scenario: the target
at address 0 and a received promise at address 1. -/
def c8StDeferred : RpcState :=
  { heap := [(0, { fields := [("x", .numV 0)] }), (1, { isPromise := true })],
    nextAddr := 2,
    hostObjects := [("o", (0, c8Descr))] }

/-- The prop_set message assigning a plain number. -/
def c8MsgDirect : CallMsg :=
  { actionC := .prop_set, callTypeC := .sync, objIdC := "o", propC := some "x",
    argsC := [.numV 42] }

/-- The prop_set message assigning the received promise. -/
def c8MsgDeferred : CallMsg :=
  { actionC := .prop_set, callTypeC := .void, objIdC := "o", propC := some "x",
    argsC := [.ref 1] }

/-- A plain host object at address 0 with a scalar field and a nested
function-valued field. -/
def c9St : RpcState :=
  { heap := [(0, { fields := [("x", .numV 1), ("f", .ref 1)] }),
             (1, { isFunction := true })],
    nextAddr := 2 }

/-- A received untagged plain object at address 0 holding only a scalar. -/
def c9StDeser : RpcState :=
  { heap := [(0, { fields := [("y", .strV "s")] })], nextAddr := 1 }

/-- An endpoint holding a bare class constructor function at address 0. -/
def c10St : RpcState :=
  { heap := [(0, { isFunction := true })], nextAddr := 1 }

/-- A class descriptor declaring both a static part and a ctor part. -/
def c10Full : ClassDescriptor :=
  { ctorD := some (bareNamed "ctor"), staticPart := some {}, instancePart := some {} }

end SuperRpc

/-! # Theorems -/

namespace SuperRpc

/-- Looking up the key just inserted yields the inserted value. -/
theorem alookup_ainsert_self {α β : Type} [DecidableEq α] (l : List (α × β)) (k : α) (v : β) :
    alookup (ainsert l k v) k = some v := by
  induction l with
  | nil => simp [ainsert, alookup]
  | cons p rest ih =>
    obtain ⟨a, b⟩ := p
    by_cases h : a = k
    · subst h; simp [ainsert, alookup]
    · simp [ainsert, alookup, h, ih]

/-- Inserting one key leaves lookups of other keys unchanged. -/
theorem alookup_ainsert_ne {α β : Type} [DecidableEq α] (l : List (α × β)) (k x : α) (v : β)
    (hx : x ≠ k) : alookup (ainsert l k v) x = alookup l x := by
  induction l with
  | nil => simp [ainsert, alookup, Ne.symm hx]
  | cons p rest ih =>
    obtain ⟨a, b⟩ := p
    by_cases h : a = k
    · subst h; simp [ainsert, alookup, Ne.symm hx]
    · simp [ainsert, alookup, h, ih]

/-- A successful lookup locates a member of the list. -/
theorem alookup_mem {α β : Type} [DecidableEq α] {l : List (α × β)} {k : α} {v : β}
    (h : alookup l k = some v) : (k, v) ∈ l := by
  induction l with
  | nil => simp [alookup] at h
  | cons p rest ih =>
    obtain ⟨a, b⟩ := p
    by_cases hak : a = k
    · subst hak
      simp [alookup] at h
      subst h
      exact List.mem_cons_self _ _
    · simp [alookup, hak] at h
      exact List.mem_cons_of_mem _ (ih h)

/-- A key absent from the key list looks up to nothing. -/
theorem alookup_eq_none_of_not_mem {α β : Type} [DecidableEq α] {l : List (α × β)} {k : α}
    (h : k ∉ l.map Prod.fst) : alookup l k = none := by
  induction l with
  | nil => rfl
  | cons p rest ih =>
    obtain ⟨a, b⟩ := p
    simp only [List.map_cons, List.mem_cons, not_or] at h
    simp [alookup, Ne.symm h.1, ih h.2]

/-- The key list of an insertion at an already present key is unchanged. -/
theorem map_fst_ainsert_mem {α β : Type} [DecidableEq α] (l : List (α × β)) (k : α) (v : β)
    (h : k ∈ l.map Prod.fst) : (ainsert l k v).map Prod.fst = l.map Prod.fst := by
  induction l with
  | nil => simp at h
  | cons p rest ih =>
    obtain ⟨a, b⟩ := p
    by_cases hak : a = k
    · subst hak; simp [ainsert]
    · have hk : k ∈ rest.map Prod.fst := by
        rcases List.mem_cons.mp h with h1 | h2
        · exact absurd h1.symm hak
        · exact h2
      simp [ainsert, hak, ih hk]

/-- Membership in the key list after an insertion. -/
theorem mem_keys_ainsert {α β : Type} [DecidableEq α] {l : List (α × β)} {x k : α} (v : β) :
    x ∈ (ainsert l k v).map Prod.fst ↔ x = k ∨ x ∈ l.map Prod.fst := by
  induction l with
  | nil => simp [ainsert]
  | cons p rest ih =>
    obtain ⟨a, b⟩ := p
    by_cases hak : a = k
    · subst hak; simp [ainsert]
    · simp [ainsert, hak, ih]
      tauto

/-- Insertion preserves distinctness of the key list. -/
theorem nodup_keys_ainsert {α β : Type} [DecidableEq α] {l : List (α × β)} (k : α) (v : β)
    (h : (l.map Prod.fst).Nodup) : ((ainsert l k v).map Prod.fst).Nodup := by
  induction l with
  | nil => simp [ainsert]
  | cons p rest ih =>
    obtain ⟨a, b⟩ := p
    simp only [List.map_cons, List.nodup_cons] at h
    by_cases hak : a = k
    · subst hak
      simpa [ainsert] using h
    · simp only [ainsert, hak, if_false, List.map_cons, List.nodup_cons]
      refine ⟨fun hmem => ?_, ih h.2⟩
      rcases (mem_keys_ainsert v).mp hmem with h1 | h2
      · exact hak h1
      · exact h.1 h2

/-- Erasing a key that does not look up is the identity. -/
theorem aerase_of_alookup_none {α β : Type} [DecidableEq α] {l : List (α × β)} {k : α}
    (h : alookup l k = none) : aerase l k = l := by
  induction l with
  | nil => rfl
  | cons p rest ih =>
    obtain ⟨a, b⟩ := p
    by_cases hak : a = k
    · subst hak; simp [alookup] at h
    · simp [alookup, hak] at h
      simp [aerase, hak, ih h]

/-- With distinct keys, an erased key no longer looks up. -/
theorem alookup_aerase_self {α β : Type} [DecidableEq α] {l : List (α × β)} (k : α)
    (h : (l.map Prod.fst).Nodup) : alookup (aerase l k) k = none := by
  induction l with
  | nil => rfl
  | cons p rest ih =>
    obtain ⟨a, b⟩ := p
    simp only [List.map_cons, List.nodup_cons] at h
    by_cases hak : a = k
    · subst hak
      simpa [aerase] using alookup_eq_none_of_not_mem h.1
    · simp [aerase, hak, alookup, ih h.2]

/-- Reading back a heap cell just written. -/
theorem heapGetD_heapSet_self (st : RpcState) (a : Nat) (o : JSObj) :
    heapGetD (heapSet st a o).heap a = o := by
  simp [heapGetD, heapSet, alookup_ainsert_self]

/-- Writing one heap cell leaves the others unchanged. -/
theorem heapGetD_heapSet_ne (st : RpcState) (a x : Nat) (o : JSObj) (h : x ≠ a) :
    heapGetD (heapSet st a o).heap x = heapGetD st.heap x := by
  simp [heapGetD, heapSet, alookup_ainsert_ne _ _ _ _ h]

/-- C2: the effective call mode of a synthesized proxy callable is computed
from the declared return behavior by the downgrade and upgrade rules of the
claim, and a declared void is never re-mapped regardless of transports. -/
theorem c2_call_mode_selection (declared : Option FunctionReturnBehavior)
    (defaultCallType : FunctionReturnBehavior) (replyChannel : ChannelCaps) :
    chooseCallType declared defaultCallType replyChannel
      = claimC2CallMode declared defaultCallType replyChannel := by
  rcases declared with _ | d
  · cases defaultCallType <;> rcases replyChannel with ⟨hs, ha⟩ <;>
      cases hs <;> cases ha <;> rfl
  · cases d <;> rcases replyChannel with ⟨hs, ha⟩ <;>
      cases hs <;> cases ha <;> cases defaultCallType <;> rfl

end SuperRpc

namespace ProxyObjectRegistryModel

open SuperRpc

/-- C3 counterexample: the installed dispose closure does not consult the
disposed flag, so invoking it a second time runs the onDispose hook again:
after register and two explicit dispose invocations the hook has run twice,
refuting the claim that it runs at most once per registered proxy. -/
theorem c3_counterexample :
    ¬ ((let r1 := register {} {} "p" 0 0
        let r2 := disposeInvoke r1.1 r1.2 "p" 0 true
        let r3 := disposeInvoke r2.1 r2.2 "p" 0 true
        r3.2.disposeRuns) ≤ 1) := by decide

/-- C3 amended: a second explicit dispose invocation is a no-op on the
registry state (the entry stays removed, the finalization token stays
unregistered, the disposed flag stays set) and GC-driven finalization after
an explicit dispose cannot re-fire because the token was unregistered; but
each explicit invocation of the dispose method runs the onDispose hook once
more. -/
theorem c3_second_dispose (s : RegistryState) (o : TrackedObj) (objId : String)
    (addr token : Nat) (hd : Bool)
    (htok : token ∉ s.finalizationTokens)
    (hnodup : (s.registry.map Prod.fst).Nodup) :
    (disposeInvoke (disposeInvoke (register s o objId addr token).1
        (register s o objId addr token).2 objId token hd).1
      (disposeInvoke (register s o objId addr token).1
        (register s o objId addr token).2 objId token hd).2 objId token hd).1
      = (disposeInvoke (register s o objId addr token).1
          (register s o objId addr token).2 objId token hd).1
    ∧ (disposeInvoke (disposeInvoke (register s o objId addr token).1
          (register s o objId addr token).2 objId token hd).1
        (disposeInvoke (register s o objId addr token).1
          (register s o objId addr token).2 objId token hd).2 objId token hd).2.rpcDisposedFlag
        = (disposeInvoke (register s o objId addr token).1
            (register s o objId addr token).2 objId token hd).2.rpcDisposedFlag
    ∧ (disposeInvoke (disposeInvoke (register s o objId addr token).1
          (register s o objId addr token).2 objId token hd).1
        (disposeInvoke (register s o objId addr token).1
          (register s o objId addr token).2 objId token hd).2 objId token hd).2.disposeRuns
        = (disposeInvoke (register s o objId addr token).1
            (register s o objId addr token).2 objId token hd).2.disposeRuns
          + (if hd then 1 else 0)
    ∧ gcFinalize (disposeInvoke (register s o objId addr token).1
          (register s o objId addr token).2 objId token hd).1
        (disposeInvoke (register s o objId addr token).1
          (register s o objId addr token).2 objId token hd).2 objId token hd
        = ((disposeInvoke (register s o objId addr token).1
              (register s o objId addr token).2 objId token hd).1,
           (disposeInvoke (register s o objId addr token).1
              (register s o objId addr token).2 objId token hd).2) := by
  have hreg : aerase (aerase (ainsert s.registry objId addr) objId) objId
      = aerase (ainsert s.registry objId addr) objId :=
    aerase_of_alookup_none
      (alookup_aerase_self objId (nodup_keys_ainsert objId addr hnodup))
  have htok1 : (s.finalizationTokens ++ [token]).erase token = s.finalizationTokens := by
    rw [List.erase_append_right _ htok, List.erase_cons_head, List.append_nil]
  have htok2 : ((s.finalizationTokens ++ [token]).erase token).erase token
      = (s.finalizationTokens ++ [token]).erase token := by
    rw [htok1, List.erase_of_not_mem htok]
  refine ⟨?_, rfl, rfl, ?_⟩
  · simp only [register, disposeInvoke]
    rw [hreg, htok2]
  · simp only [register, disposeInvoke, gcFinalize, htok1]
    rw [if_neg htok]

/-- C3 witness: the amended statement at a concrete registration. -/
theorem c3_witness :
    (disposeInvoke (disposeInvoke (register {} {} "w" 4 6).1
        (register {} {} "w" 4 6).2 "w" 6 true).1
      (disposeInvoke (register {} {} "w" 4 6).1
        (register {} {} "w" 4 6).2 "w" 6 true).2 "w" 6 true).1
      = (disposeInvoke (register {} {} "w" 4 6).1
          (register {} {} "w" 4 6).2 "w" 6 true).1
    ∧ (disposeInvoke (disposeInvoke (register {} {} "w" 4 6).1
          (register {} {} "w" 4 6).2 "w" 6 true).1
        (disposeInvoke (register {} {} "w" 4 6).1
          (register {} {} "w" 4 6).2 "w" 6 true).2 "w" 6 true).2.rpcDisposedFlag
        = (disposeInvoke (register {} {} "w" 4 6).1
            (register {} {} "w" 4 6).2 "w" 6 true).2.rpcDisposedFlag
    ∧ (disposeInvoke (disposeInvoke (register {} {} "w" 4 6).1
          (register {} {} "w" 4 6).2 "w" 6 true).1
        (disposeInvoke (register {} {} "w" 4 6).1
          (register {} {} "w" 4 6).2 "w" 6 true).2 "w" 6 true).2.disposeRuns
        = (disposeInvoke (register {} {} "w" 4 6).1
            (register {} {} "w" 4 6).2 "w" 6 true).2.disposeRuns
          + (if true then 1 else 0)
    ∧ gcFinalize (disposeInvoke (register {} {} "w" 4 6).1
          (register {} {} "w" 4 6).2 "w" 6 true).1
        (disposeInvoke (register {} {} "w" 4 6).1
          (register {} {} "w" 4 6).2 "w" 6 true).2 "w" 6 true
        = ((disposeInvoke (register {} {} "w" 4 6).1
              (register {} {} "w" 4 6).2 "w" 6 true).1,
           (disposeInvoke (register {} {} "w" 4 6).1
              (register {} {} "w" 4 6).2 "w" 6 true).2) :=
  c3_second_dispose {} {} "w" 4 6 true (by decide) (by decide)

end ProxyObjectRegistryModel

namespace SuperRpc

/-- C4 counterexample: after receiving obj_died for k, the lazily
auto-registered host-function entry under k is still present (the claim
demands that it be removed). -/
theorem c4_counterexample :
    (alookup (resStateD (messageReceived 1 c4State (.objDiedM "k" true) ⟨true, true⟩)
        c4State).hostFunctions "k").isSome = true := rfl

/-- C4 amended: receiving obj_died for k removes exactly the host-object
entry under k; the host-function registry (and every other component of the
state, in particular lazily auto-registered host functions) is left
untouched. -/
theorem c4_objdied_deletes_only_host_objects (fuel : Nat) (st : RpcState) (k : String)
    (replyChannel : ChannelCaps) :
    messageReceived fuel st (.objDiedM k true) replyChannel
      = .ok () { st with hostObjects := aerase st.hostObjects k } := rfl

/-- C5: every lookup and deserialization path consults the weak proxy
registry first and, while a proxy is registered for the id, returns that very
instance with the state unchanged, so no second proxy is created. -/
theorem c5_at_most_one_proxy (st : RpcState) (objId : String) (a : Nat)
    (classId props : JSVal) (replyChannel : ChannelCaps) (fd : Option FunctionDescriptor)
    (h : alookup st.proxyRegistry objId = some a) :
    getProxyObject st objId = .ok (.ref a) st
    ∧ getProxyFunction st objId = .ok (.ref a) st
    ∧ getOrCreateProxyInstance st objId classId props replyChannel = .ok (.ref a) st
    ∧ getOrCreateProxyFunction st objId replyChannel fd = .ok (.ref a) st := by
  refine ⟨?_, ?_, ?_, ?_⟩ <;>
    simp only [getProxyObject, getProxyFunction, getOrCreateProxyInstance,
      getOrCreateProxyFunction, h]

/-- C5 witness: the registered proxy under p is returned by all four paths. -/
theorem c5_witness :
    getProxyObject c5State "p" = .ok (.ref 3) c5State
    ∧ getProxyFunction c5State "p" = .ok (.ref 3) c5State
    ∧ getOrCreateProxyInstance c5State "p" (.strV "C") .undefV ⟨true, true⟩
        = .ok (.ref 3) c5State
    ∧ getOrCreateProxyFunction c5State "p" ⟨true, true⟩ none = .ok (.ref 3) c5State :=
  c5_at_most_one_proxy c5State "p" 3 (.strV "C") .undefV ⟨true, true⟩ none rfl

/-- C7: invoking a proxy callable whose disposed flag is set fails with the
fixed disposed error: the void and sync shapes throw synchronously, while the
async shape returns a promise rejected with that error (the executor throw is
captured by the Promise constructor) instead of throwing synchronously. -/
theorem c7_disposed_proxy (fuel : Nat) (st : RpcState) (fnAddr : Nat)
    (thisProxyId : Option String) (args : List JSVal) (responder : SyncResponse)
    (meta : ProxyFnMeta)
    (hfn : (heapGetD st.heap fnAddr).fnImpl = some (.proxyFn meta))
    (hd : (heapGetD st.heap fnAddr).rpcDisposed = true) :
    (meta.callTypeM = .void →
      invokeProxyFn fuel st fnAddr thisProxyId args responder
        = .thrownI "Remote function has been disposed" st)
    ∧ (meta.callTypeM = .sync →
      invokeProxyFn fuel st fnAddr thisProxyId args responder
        = .thrownI "Remote function has been disposed" st)
    ∧ (meta.callTypeM = .async →
      invokeProxyFn fuel st fnAddr thisProxyId args responder
        = .promiseRejected "Remote function has been disposed" st) := by
  refine ⟨fun hv => ?_, fun hs => ?_, fun ha => ?_⟩ <;>
    simp only [invokeProxyFn, hfn] <;>
    first
      | (rw [hv]; simp only [hd, if_true])
      | (rw [hs]; simp only [hd, if_true])
      | (rw [ha]; simp only [hd, if_true])

/-- C7 witness: the three disposed callables of the concrete state. -/
theorem c7_witness :
    invokeProxyFn 1 c7St 0 none [] .noResponse
      = .thrownI "Remote function has been disposed" c7St
    ∧ invokeProxyFn 1 c7St 1 none [] .noResponse
      = .thrownI "Remote function has been disposed" c7St
    ∧ invokeProxyFn 1 c7St 2 none [] .noResponse
      = .promiseRejected "Remote function has been disposed" c7St :=
  ⟨(c7_disposed_proxy 1 c7St 0 none [] .noResponse (c7Meta .void) rfl rfl).1 rfl,
   (c7_disposed_proxy 1 c7St 1 none [] .noResponse (c7Meta .sync) rfl rfl).2.1 rfl,
   (c7_disposed_proxy 1 c7St 2 none [] .noResponse (c7Meta .async) rfl rfl).2.2 rfl⟩

/-- C10 counterexample: registering a host class whose descriptor has neither
a static nor a ctor part does not stamp the constructor with the class id as
its host object id (the claim asserts that the stamp is always applied). -/
theorem c10_counterexample :
    ¬ ((heapGetD (registerHostClass c10St "c" 0 {}).heap 0).hostObjId = some "c") := by
  decide

/-- C10 amended: registerHostClass always installs the class entry and stamps
the constructor with the classId symbol; a static part additionally creates a
host-object entry under the class id, a ctor part additionally creates a
host-function entry under the class id, and the constructor is stamped with
the class id as its host object id exactly when at least one of those parts
is present. -/
theorem c10_register_host_class (st : RpcState) (classId : String) (a : Nat)
    (d : ClassDescriptor) :
    ((alookup (registerHostClass st classId a d).hostClasses classId).isSome = true)
    ∧ (d.staticPart.isSome = true →
        (alookup (registerHostClass st classId a d).hostObjects classId).isSome = true)
    ∧ (d.staticPart.isSome = false →
        (registerHostClass st classId a d).hostObjects = st.hostObjects)
    ∧ (d.ctorD.isSome = true →
        (alookup (registerHostClass st classId a d).hostFunctions classId).isSome = true)
    ∧ (d.ctorD.isSome = false →
        (registerHostClass st classId a d).hostFunctions = st.hostFunctions)
    ∧ ((d.staticPart.isSome = true ∨ d.ctorD.isSome = true) →
        (heapGetD (registerHostClass st classId a d).heap a).hostObjId = some classId)
    ∧ (heapGetD (registerHostClass st classId a d).heap a).ctorClassId = some classId := by
  obtain ⟨dt, cid, ct, sp, ip⟩ := d
  cases sp <;> cases ct <;>
    simp [registerHostClass, registerHostObject, registerHostFunction, heapGetD, heapSet,
      alookup_ainsert_self]

/-- C10 witness: a class with both a static and a ctor part occupies all
three registries under the same id and the constructor carries both stamps. -/
theorem c10_witness :
    ((alookup (registerHostClass c10St "c" 0 c10Full).hostClasses "c").isSome = true)
    ∧ (c10Full.staticPart.isSome = true →
        (alookup (registerHostClass c10St "c" 0 c10Full).hostObjects "c").isSome = true)
    ∧ (c10Full.staticPart.isSome = false →
        (registerHostClass c10St "c" 0 c10Full).hostObjects = c10St.hostObjects)
    ∧ (c10Full.ctorD.isSome = true →
        (alookup (registerHostClass c10St "c" 0 c10Full).hostFunctions "c").isSome = true)
    ∧ (c10Full.ctorD.isSome = false →
        (registerHostClass c10St "c" 0 c10Full).hostFunctions = c10St.hostFunctions)
    ∧ ((c10Full.staticPart.isSome = true ∨ c10Full.ctorD.isSome = true) →
        (heapGetD (registerHostClass c10St "c" 0 c10Full).heap 0).hostObjId = some "c")
    ∧ (heapGetD (registerHostClass c10St "c" 0 c10Full).heap 0).ctorClassId = some "c" :=
  c10_register_host_class c10St "c" 0 c10Full

/-- C1: a value stamped with a truthy proxy id serializes to the hostObject
wire form carrying that id, and deserializing such a wire form on the origin
endpoint, while the host entry for the id is present, returns a reference to
the registered target itself with the origin state untouched: the original
object, not a new proxy layer. -/
theorem c1_roundtrip_identity (fuel fuel2 : Nat) (sender origin : RpcState)
    (chan chan2 : ChannelCaps) (a w t : Nat) (k : String)
    (d : Option FunctionDescriptor) (d2 : Option DescrAny) (dd : ObjectDescriptor)
    (hk : k ≠ "")
    (hp : (heapGetD sender.heap a).proxyObjId = some k)
    (hwf : (heapGetD origin.heap w).fields
      = [("_rpc_type", .strV "hostObject"), ("objId", .strV k)])
    (hwfn : (heapGetD origin.heap w).isFunction = false)
    (ht : alookup origin.hostObjects k = some (t, dd)) :
    (∃ wa st', processBeforeSerialization (fuel + 1) sender chan (.ref a) d
        = some (.ref wa, st')
      ∧ (heapGetD st'.heap wa).fields
        = [("_rpc_type", .strV "hostObject"), ("objId", .strV k)])
    ∧ processAfterDeserialization (fuel2 + 1) origin chan2 (.ref w) d2
        = .ok (.ref t) origin := by
  have hke : k.isEmpty = false := by
    cases h0 : k.isEmpty with
    | false => rfl
    | true => exact absurd ((String.isEmpty_iff k).mp h0) hk
  constructor
  · refine ⟨sender.nextAddr,
      { sender with
        heap := ainsert sender.heap sender.nextAddr
          { fields := [("_rpc_type", .strV "hostObject"), ("objId", .strV k)] },
        nextAddr := sender.nextAddr + 1 }, ?_, ?_⟩
    · simp [processBeforeSerialization, pbsStep, hp, truthyId, hke, allocObj]
    · simp [heapGetD, alookup_ainsert_self]
  · simp [processAfterDeserialization, padStep, hwfn, getField, hwf, alookup, keyOf, ht]

/-- C1 witness: the concrete proxy at address 0 round-trips to the concrete
host target at address 7. -/
theorem c1_witness :
    (∃ wa st', processBeforeSerialization 1 c1Sender ⟨true, true⟩ (.ref 0) none
        = some (.ref wa, st')
      ∧ (heapGetD st'.heap wa).fields
        = [("_rpc_type", .strV "hostObject"), ("objId", .strV "h1")])
    ∧ processAfterDeserialization 1 c1Origin ⟨true, true⟩ (.ref 5) none
        = .ok (.ref 7) c1Origin :=
  c1_roundtrip_identity 0 0 c1Sender c1Origin ⟨true, true⟩ ⟨true, true⟩ 0 5 7 "h1"
    none none {} (by decide) rfl rfl rfl rfl

/-- C6: when host-side processing of an incoming call throws, the error
travels as its string form: a sync call replies synchronously with success
false and the string, an async call replies asynchronously with success
false, the string and the correlation id; on the proxy side the sync shape
then raises an error whose message is exactly that string, and the origin of
a deferred call rejects it with exactly that string while deleting the
pending entry. -/
theorem c6_remote_error_propagation (fuel : Nat) (sth st1 st2 : RpcState)
    (msgs msga : CallMsg) (chan : ChannelCaps) (e : String)
    (hs : msgs.callTypeC = .sync) (hchS : chan.hasSendSync = true)
    (hth : callCompute fuel sth msgs chan = .thrown e st1)
    (ha : msga.callTypeC = .async) (hchA : chan.hasSendAsync = true)
    (htha : callCompute fuel sth msga chan = .thrown e st2)
    (stp : RpcState) (fnAddr : Nat) (meta : ProxyFnMeta) (tpid : Option String)
    (hfn : (heapGetD stp.heap fnAddr).fnImpl = some (.proxyFn meta))
    (hnd : (heapGetD stp.heap fnAddr).rpcDisposed = false)
    (hmt : meta.callTypeM = .sync) (hmch : meta.chanM.hasSendSync = true)
    (sto : RpcState) (cid : String)
    (hcb : alookup sto.asyncCallbacks cid = some ()) :
    callTargetFunction fuel sth msgs chan
      = some { st1 with emitted := st1.emitted
          ++ [⟨true, .fnReplyM .sync false (.strV e) none true⟩] }
    ∧ callTargetFunction fuel sth msga chan
      = some { st2 with emitted := st2.emitted
          ++ [⟨false, .fnReplyM .async false (.strV e) msga.callIdC true⟩] }
    ∧ invokeProxyFn fuel stp fnAddr tpid [] (.reply false (.strV e))
      = .thrownI e (emitSync stp meta.chanM
          (.callM
            { actionC := meta.actionM, callTypeC := .sync,
              objIdC := (match meta.objIdM with
                | some i => some i
                | none => tpid).getD "undefined",
              propC := meta.descrM.nameF, argsC := [] } true))
    ∧ messageReceived (fuel + 1) sto (.fnReplyM .async false (.strV e) (some cid) true) chan
      = .ok () { sto with
          settledCalls := sto.settledCalls ++ [(cid, false, .strV e)],
          asyncCallbacks := aerase sto.asyncCallbacks cid } := by
  refine ⟨?_, ?_, ?_, ?_⟩
  · simp [callTargetFunction, hth, hs, emitSync, hchS]
  · simp [callTargetFunction, htha, ha, emitAsync, hchA]
  · simp [invokeProxyFn, hfn, hmt, hnd, serializeFunctionArgs, hmch, jsToString]
  · simp [messageReceived, RpcMessage.marker, processAfterDeserialization, padStep, hcb]

/-- C6 witness: the concrete scenario in which no host entry exists for the
called id, so processing throws the resolution error. -/
theorem c6_witness :
    callTargetFunction 1 {} c6MsgS ⟨true, true⟩
      = some { ({} : RpcState) with emitted := ({} : RpcState).emitted
          ++ [⟨true, .fnReplyM .sync false (.strV "No object found with ID nope") none true⟩] }
    ∧ callTargetFunction 1 {} c6MsgA ⟨true, true⟩
      = some { ({} : RpcState) with emitted := ({} : RpcState).emitted
          ++ [⟨false, .fnReplyM .async false (.strV "No object found with ID nope")
              c6MsgA.callIdC true⟩] }
    ∧ invokeProxyFn 1 c6ProxySt 0 none [] (.reply false (.strV "No object found with ID nope"))
      = .thrownI "No object found with ID nope" (emitSync c6ProxySt c6Meta.chanM
          (.callM
            { actionC := c6Meta.actionM, callTypeC := .sync,
              objIdC := (match c6Meta.objIdM with
                | some i => some i
                | none => none).getD "undefined",
              propC := c6Meta.descrM.nameF, argsC := [] } true))
    ∧ messageReceived 2 c6OriginSt
        (.fnReplyM .async false (.strV "No object found with ID nope") (some "9") true)
        ⟨true, true⟩
      = .ok () { c6OriginSt with
          settledCalls := c6OriginSt.settledCalls
            ++ [("9", false, .strV "No object found with ID nope")],
          asyncCallbacks := aerase c6OriginSt.asyncCallbacks "9" } :=
  c6_remote_error_propagation 1 {} {} {} c6MsgS c6MsgA ⟨true, true⟩
    "No object found with ID nope" rfl rfl rfl rfl rfl rfl
    c6ProxySt 0 c6Meta none rfl rfl rfl rfl c6OriginSt "9" rfl

/-- C8: an incoming prop_set assigns the deserialized value to the target
property directly, except exactly when that value is a promise and the
declared getter is async or the reply channel has no synchronous transport;
in that case nothing is assigned now and the assignment is deferred to the
settlement of the promise. -/
theorem c8_prop_set_assignment (fuel : Nat) (st st1 : RpcState) (msg : CallMsg)
    (replyChannel : ChannelCaps) (target : Nat) (od : ObjectDescriptor) (r : JSVal)
    (hact : msg.actionC = .prop_set)
    (hent : alookup st.hostObjects msg.objIdC = some (target, od))
    (hdes : processAfterDeserialization fuel st replyChannel (msg.argsC.headD .undefV)
      (((((getPropertyDescriptor od (msg.propC.getD "undefined")).bind
            PropertyDescr.setD).map FunctionDescriptor.argsF).bind
          (fun l => l.get? 0)).map DescrAny.fnD) = .ok r st1) :
    ((isPromiseRef st1 r &&
        (decide ((((getPropertyDescriptor od (msg.propC.getD "undefined")).bind
              PropertyDescr.getD).bind FunctionDescriptor.returnsF) = some .async)
          || !replyChannel.hasSendSync)) = true →
      callCompute fuel st msg replyChannel
        = .ok .undefV { st1 with pendingAssignments := st1.pendingAssignments
            ++ [(target, msg.propC.getD "undefined", r)] })
    ∧ ((isPromiseRef st1 r &&
        (decide ((((getPropertyDescriptor od (msg.propC.getD "undefined")).bind
              PropertyDescr.getD).bind FunctionDescriptor.returnsF) = some .async)
          || !replyChannel.hasSendSync)) = false →
      callCompute fuel st msg replyChannel
        = .ok .undefV (setField st1 target (msg.propC.getD "undefined") r)) := by
  constructor
  · intro hcond
    simp only [callCompute, hact, hent]
    rw [hdes]
    simp [hcond]
  · intro hcond
    simp only [callCompute, hact, hent]
    rw [hdes]
    simp [hcond]

/-- C8 witness: a plain value is assigned directly through a sync channel,
and a received promise with a non-async getter is deferred when the channel
has no synchronous transport. -/
theorem c8_witness :
    callCompute 1 c8StDirect c8MsgDirect ⟨true, true⟩
      = .ok .undefV (setField c8StDirect 0 "x" (.numV 42))
    ∧ callCompute 1 c8StDeferred c8MsgDeferred ⟨false, true⟩
      = .ok .undefV { c8StDeferred with pendingAssignments :=
          c8StDeferred.pendingAssignments ++ [(0, "x", .ref 1)] } :=
  ⟨(c8_prop_set_assignment 1 c8StDirect c8StDirect c8MsgDirect ⟨true, true⟩ 0 c8Descr
      (.numV 42) rfl rfl rfl).2 rfl,
   (c8_prop_set_assignment 1 c8StDeferred c8StDeferred c8MsgDeferred ⟨false, true⟩ 0 c8Descr
      (.ref 1) rfl rfl rfl).1 rfl⟩

end SuperRpc

namespace SuperRpc

/-- Membership after an insertion comes from the new pair or the old list. -/
theorem mem_ainsert {α β : Type} [DecidableEq α] {l : List (α × β)} {x : α × β} {k : α}
    {v : β} (h : x ∈ ainsert l k v) : x = (k, v) ∨ x ∈ l := by
  induction l with
  | nil => simpa [ainsert] using h
  | cons p rest ih =>
    obtain ⟨a, b⟩ := p
    by_cases hak : a = k
    · subst hak
      rcases List.mem_cons.mp (by simpa [ainsert] using h) with h1 | h2
      · exact Or.inl h1
      · exact Or.inr (List.mem_cons_of_mem _ h2)
    · rcases List.mem_cons.mp (by simpa [ainsert, hak] using h) with h1 | h2
      · exact Or.inr (h1 ▸ List.mem_cons_self _ _)
      · rcases ih h2 with h3 | h4
        · exact Or.inl h3
        · exact Or.inr (List.mem_cons_of_mem _ h4)

/-- A pointwise property survives an insertion when the new pair has it. -/
theorem all_ainsert {α β : Type} [DecidableEq α] {l : List (α × β)} {k : α} {v : β}
    (P : α × β → Bool) (hl : l.all P = true) (hv : P (k, v) = true) :
    (ainsert l k v).all P = true := by
  rw [List.all_eq_true] at hl ⊢
  intro x hx
  rcases mem_ainsert hx with h1 | h2
  · exact h1 ▸ hv
  · exact hl x h2

/-- valBelow is monotone in the bound. -/
theorem valBelow_mono {v : JSVal} {n m : Nat} (h : valBelow v n = true) (hnm : n ≤ m) :
    valBelow v m = true := by
  cases v <;> simp [valBelow] at h ⊢ <;> omega

/-- objFieldsBelow is monotone in the bound. -/
theorem objFieldsBelow_mono {o : JSObj} {n m : Nat} (h : objFieldsBelow o n = true)
    (hnm : n ≤ m) : objFieldsBelow o m = true := by
  rw [objFieldsBelow, List.all_eq_true] at h ⊢
  exact fun kv hkv => valBelow_mono (h kv hkv) hnm

/-- In a well-formed state a bound address lies below nextAddr and its fields
reference only addresses below nextAddr. -/
theorem wf_lookup {st : RpcState} {x : Nat} {o : JSObj} (hwf : WFHeap st = true)
    (h : alookup st.heap x = some o) :
    x < st.nextAddr ∧ objFieldsBelow o st.nextAddr = true := by
  rw [WFHeap, List.all_eq_true] at hwf
  have := hwf (x, o) (alookup_mem h)
  simpa using this

/-- In a well-formed state addresses at or beyond nextAddr are unbound. -/
theorem wf_fresh {st : RpcState} {x : Nat} (hwf : WFHeap st = true)
    (h : st.nextAddr ≤ x) : alookup st.heap x = none := by
  cases h0 : alookup st.heap x with
  | none => rfl
  | some o => exact absurd (wf_lookup hwf h0).1 (by omega)

/-- An unbound address reads as the default object. -/
theorem heapGetD_of_none {st : RpcState} {x : Nat} (h : alookup st.heap x = none) :
    heapGetD st.heap x = default := by
  simp [heapGetD, h]

/-- Reading any field of a well-formed state yields a value below nextAddr. -/
theorem getField_below {st : RpcState} (a : Nat) (k : String) (hwf : WFHeap st = true) :
    valBelow (getField (heapGetD st.heap a) k) st.nextAddr = true := by
  cases h0 : alookup st.heap a with
  | none =>
    rw [heapGetD_of_none h0]
    cases h1 : alookup (default : JSObj).fields k with
    | none => simp [getField, h1, valBelow]
    | some v =>
      rw [show (default : JSObj).fields = [] from rfl] at h1
      simp [alookup] at h1
  | some o =>
    have hof := (wf_lookup hwf h0).2
    rw [objFieldsBelow, List.all_eq_true] at hof
    cases h1 : alookup o.fields k with
    | none => simp [getField, heapGetD, h0, h1, valBelow]
    | some v =>
      have := hof (k, v) (alookup_mem h1)
      simpa [getField, heapGetD, h0, h1] using this

/-- Pres is reflexive on well-formed states. -/
theorem pres_refl {st : RpcState} (hwf : WFHeap st = true) : Pres st st :=
  ⟨Nat.le_refl _, hwf, fun _ hx => ⟨hx, rfl⟩⟩

/-- Pres is transitive. -/
theorem pres_trans {st1 st2 st3 : RpcState} (h12 : Pres st1 st2) (h23 : Pres st2 st3) :
    Pres st1 st3 := by
  refine ⟨Nat.le_trans h12.mono h23.mono, h23.wf, fun x hx => ?_⟩
  obtain ⟨hx2, hk2⟩ := h12.keep x hx
  obtain ⟨hx3, hk3⟩ := h23.keep x hx2
  exact ⟨hx3, hk3.trans hk2⟩

/-- A state update that leaves the heap and nextAddr alone preserves the
frame. -/
theorem pres_same_heap {st st' : RpcState} (hh : st'.heap = st.heap)
    (hn : st'.nextAddr = st.nextAddr) (hwf : WFHeap st = true) : Pres st st' := by
  refine ⟨hn ▸ Nat.le_refl _, ?_, fun x hx => ?_⟩
  · rw [WFHeap, hh, hn]; exact hwf
  · rw [hh, hn] at *
    exact ⟨hx, rfl⟩

/-- Allocation at the fresh address preserves the frame when the new object
references only valid addresses. -/
theorem pres_alloc {st : RpcState} (o : JSObj) (hwf : WFHeap st = true)
    (ho : objFieldsBelow o (st.nextAddr + 1) = true) : Pres st (allocObj st o).2 := by
  have hfresh : alookup st.heap st.nextAddr = none := wf_fresh hwf (Nat.le_refl _)
  refine ⟨Nat.le_succ _, ?_, fun x hx => ?_⟩
  · rw [WFHeap]
    simp only [allocObj]
    refine all_ainsert _ ?_ ?_
    · rw [WFHeap, List.all_eq_true] at hwf
      rw [List.all_eq_true]
      intro p hp
      have := hwf p hp
      simp only [Bool.and_eq_true, decide_eq_true_eq] at this ⊢
      exact ⟨by omega, objFieldsBelow_mono this.2 (Nat.le_succ _)⟩
    · simp only [Bool.and_eq_true, decide_eq_true_eq]
      exact ⟨Nat.lt_succ_self _, ho⟩
  · have hxne : x ≠ st.nextAddr := by
      intro hx0
      rw [hx0, hfresh] at hx
      simp at hx
    simp only [allocObj]
    rw [show (alookup (ainsert st.heap st.nextAddr o) x) = alookup st.heap x from
      alookup_ainsert_ne _ _ _ _ hxne]
    refine ⟨hx, ?_⟩
    simp only [heapGetD, alookup_ainsert_ne _ _ _ _ hxne]

/-- Overwriting a bound object with one carrying the same key list and valid
references preserves the frame. -/
theorem pres_heapSet {st : RpcState} {a : Nat} {o0 : JSObj} (o : JSObj)
    (hwf : WFHeap st = true) (hb : alookup st.heap a = some o0)
    (hkeys : o.fields.map Prod.fst = o0.fields.map Prod.fst)
    (hof : objFieldsBelow o st.nextAddr = true) : Pres st (heapSet st a o) := by
  have hlt := (wf_lookup hwf hb).1
  refine ⟨Nat.le_refl _, ?_, fun x hx => ?_⟩
  · rw [WFHeap]
    simp only [heapSet]
    refine all_ainsert _ ?_ ?_
    · rw [WFHeap, List.all_eq_true] at hwf
      rw [List.all_eq_true]
      exact fun p hp => hwf p hp
    · simp only [Bool.and_eq_true, decide_eq_true_eq]
      exact ⟨hlt, hof⟩
  · by_cases hxa : x = a
    · subst hxa
      refine ⟨?_, ?_⟩
      · simp [heapSet, alookup_ainsert_self]
      · rw [show heapGetD (heapSet st x o).heap x = o from heapGetD_heapSet_self st x o]
        rw [hkeys]
        simp [heapGetD, hb]
    · simp only [heapSet]
      rw [show alookup (ainsert st.heap a o) x = alookup st.heap x from
        alookup_ainsert_ne _ _ _ _ hxa]
      refine ⟨hx, ?_⟩
      simp only [heapGetD, alookup_ainsert_ne _ _ _ _ hxa]

end SuperRpc

namespace SuperRpc

/-- A heap object with a non-default component is bound. -/
theorem isSome_of_heapGetD_ne_default {st : RpcState} {a : Nat}
    (h : heapGetD st.heap a ≠ default) : (alookup st.heap a).isSome = true := by
  cases h0 : alookup st.heap a with
  | none => exact absurd (heapGetD_of_none h0) h
  | some o => rfl

/-- Stamping a symbol field of a bound object through a state that kept the
heap and nextAddr preserves the frame. -/
theorem pres_stamp (st st2 : RpcState) (a : Nat) (o0 : JSObj) (upd : JSObj → JSObj)
    (hh : st2.heap = st.heap) (hn : st2.nextAddr = st.nextAddr)
    (hwf : WFHeap st = true) (hb : alookup st.heap a = some o0)
    (hfields : (upd o0).fields = o0.fields) :
    Pres st (heapSet st2 a (upd (heapGetD st2.heap a))) := by
  have h12 : Pres st st2 := pres_same_heap hh hn hwf
  have ho : heapGetD st2.heap a = o0 := by rw [hh]; simp [heapGetD, hb]
  rw [ho]
  refine pres_trans h12 (@pres_heapSet st2 a o0 (upd o0) h12.wf ?_ ?_ ?_)
  · rw [hh]; exact hb
  · rw [hfields]
  · rw [objFieldsBelow, hfields, ← objFieldsBelow, hn]
    exact (wf_lookup hwf hb).2

/-- registerLocalObj preserves the frame (the id stamp does not touch the
fields of the object, and the registries live outside the heap). -/
theorem pres_registerLocalObj {st : RpcState} {a : Nat} (descr : ObjectDescriptor)
    (hwf : WFHeap st = true) (hb : (alookup st.heap a).isSome = true) :
    Pres st (registerLocalObj st a descr).2 := by
  obtain ⟨o0, hb0⟩ : ∃ o, alookup st.heap a = some o := by
    cases h : alookup st.heap a with
    | none => rw [h] at hb; simp at hb
    | some o => exact ⟨o, rfl⟩
  by_cases hc : (match (heapGetD st.heap a).hostObjId with
      | some i => (alookup st.hostObjects i).isSome
      | none => false) = true
  · simp only [registerLocalObj, hc, if_true]
    exact pres_refl hwf
  · rw [Bool.not_eq_true] at hc
    simp only [registerLocalObj, genId, hc, Bool.false_eq_true, if_false]
    exact pres_stamp st _ a o0
      (fun o => { o with hostObjId := some ("gid" ++ toString st.genCtr) })
      rfl rfl hwf hb0 rfl

/-- registerLocalFunc preserves the frame. -/
theorem pres_registerLocalFunc {st : RpcState} {a : Nat} (descr : Option FunctionDescriptor)
    (hwf : WFHeap st = true) (hb : (alookup st.heap a).isSome = true) :
    Pres st (registerLocalFunc st a descr).2 := by
  obtain ⟨o0, hb0⟩ : ∃ o, alookup st.heap a = some o := by
    cases h : alookup st.heap a with
    | none => rw [h] at hb; simp at hb
    | some o => exact ⟨o, rfl⟩
  by_cases hc : (match (heapGetD st.heap a).hostObjId with
      | some i => (alookup st.hostFunctions i).isSome
      | none => false) = true
  · simp only [registerLocalFunc, hc, if_true]
    exact pres_refl hwf
  · rw [Bool.not_eq_true] at hc
    simp only [registerLocalFunc, genId, hc, Bool.false_eq_true, if_false]
    exact pres_stamp st _ a o0
      (fun o => { o with hostObjId := some ("gid" ++ toString st.genCtr) })
      rfl rfl hwf hb0 rfl

/-- The in-place key walk of the plain-object branch preserves the frame,
provided every walked key is an own key of the walked object. -/
theorem walk_pres {rec : RpcState → ChannelCaps → JSVal → Option FunctionDescriptor →
    Option (JSVal × RpcState)} (hrec : SerRecSpec rec) (keys : List String) :
    ∀ (st : RpcState) (chan : ChannelCaps) (a : Nat) (st' : RpcState),
      WFHeap st = true → (alookup st.heap a).isSome = true →
      (∀ k ∈ keys, k ∈ (heapGetD st.heap a).fields.map Prod.fst) →
      pbsWalk rec st chan a keys = some st' → Pres st st' := by
  induction keys with
  | nil =>
    intro st chan a st' hwf _ _ hw
    simp only [pbsWalk] at hw
    cases hw
    exact pres_refl hwf
  | cons k keys ih =>
    intro st chan a st' hwf hb hkeys hw
    simp only [pbsWalk] at hw
    cases hr : rec st chan (getField (heapGetD st.heap a) k) none with
    | none => rw [hr] at hw; exact absurd hw (by simp)
    | some p =>
      obtain ⟨w, st1⟩ := p
      rw [hr] at hw
      obtain ⟨h1, hwbelow⟩ := hrec st chan _ none w st1 hwf (getField_below a k hwf) hr
      obtain ⟨hb1, hkeys1⟩ := h1.keep a hb
      obtain ⟨o1, ho1⟩ : ∃ o, alookup st1.heap a = some o := by
        cases h : alookup st1.heap a with
        | none => rw [h] at hb1; simp at hb1
        | some o => exact ⟨o, rfl⟩
      have hgo1 : heapGetD st1.heap a = o1 := by simp [heapGetD, ho1]
      have hkmem : k ∈ o1.fields.map Prod.fst := by
        have := hkeys k (List.mem_cons_self _ _)
        rw [← hgo1]
        rw [hkeys1]
        exact this
      have h2 : Pres st1 (setField st1 a k w) := by
        have hof : objFieldsBelow { o1 with fields := ainsert o1.fields k w }
            st1.nextAddr = true := by
          rw [objFieldsBelow]
          exact all_ainsert _ (wf_lookup h1.wf ho1).2 hwbelow
        have := @pres_heapSet st1 a o1
          { o1 with fields := ainsert o1.fields k w } h1.wf ho1
          (map_fst_ainsert_mem _ _ _ hkmem) hof
        simpa [setField, hgo1] using this
      have h3 : Pres (setField st1 a k w) st' := by
        refine ih _ chan a _ h2.wf (h2.keep a hb1).1 ?_ hw
        intro k2 hk2
        rw [(h2.keep a hb1).2, hkeys1]
        exact hkeys k2 (List.mem_cons_of_mem _ hk2)
      exact pres_trans (pres_trans h1 h2) h3

/-- The readonly-property snapshot of the class-instance branch preserves the
frame and produces only valid values. -/
theorem props_pres {rec : RpcState → ChannelCaps → JSVal → Option FunctionDescriptor →
    Option (JSVal × RpcState)} (hrec : SerRecSpec rec) (plist : List NameOrFD) :
    ∀ (st : RpcState) (chan : ChannelCaps) (a : Nat) (acc props : List (String × JSVal))
      (st' : RpcState),
      WFHeap st = true →
      (∀ kv ∈ acc, valBelow kv.2 st.nextAddr = true) →
      pbsProps rec st chan a plist acc = some (props, st') →
      Pres st st' ∧ ∀ kv ∈ props, valBelow kv.2 st'.nextAddr = true := by
  induction plist with
  | nil =>
    intro st chan a acc props st' hwf hacc hp
    simp only [pbsProps] at hp
    cases hp
    exact ⟨pres_refl hwf, hacc⟩
  | cons p rest ih =>
    intro st chan a acc props st' hwf hacc hp
    simp only [pbsProps] at hp
    cases hr : rec st chan (getField (heapGetD st.heap a) (getPropName p)) none with
    | none => rw [hr] at hp; exact absurd hp (by simp)
    | some q =>
      obtain ⟨w, st1⟩ := q
      rw [hr] at hp
      obtain ⟨h1, hwbelow⟩ := hrec st chan _ none w st1 hwf (getField_below a _ hwf) hr
      have hacc1 : ∀ kv ∈ ainsert acc (getPropName p) w,
          valBelow kv.2 st1.nextAddr = true := by
        intro kv hkv
        rcases mem_ainsert hkv with h0 | h0
        · rw [h0]
          exact hwbelow
        · exact valBelow_mono (hacc kv h0) h1.mono
      obtain ⟨h2, hprops⟩ := ih st1 chan a _ props st' h1.wf hacc1 hp
      exact ⟨pres_trans h1 h2, hprops⟩

end SuperRpc

namespace SuperRpc

/-- The serializer satisfies the frame specification at every fuel: on a
well-formed state it keeps the heap well formed, never moves addresses
backwards, keeps every bound object bound with its key list intact, and
produces a valid value. -/
theorem pbs_spec : ∀ fuel : Nat,
    SerRecSpec (fun st chan v d => processBeforeSerialization fuel st chan v d) := by
  intro fuel
  induction fuel with
  | zero =>
    intro st chan v d w st' _ _ h
    simp [processBeforeSerialization] at h
  | succ fuel ih =>
    intro st chan v d w st' hwf hv h
    replace h : processBeforeSerialization (fuel + 1) st chan v d = some (w, st') := h
    rw [show processBeforeSerialization (fuel + 1) st chan v d
        = pbsStep (fun st c v d => processBeforeSerialization fuel st c v d) st chan v d
      from rfl] at h
    cases v with
    | undefV =>
      simp only [pbsStep, Option.some.injEq, Prod.mk.injEq] at h
      obtain ⟨hw, hst⟩ := h
      subst hw; subst hst
      exact ⟨pres_refl hwf, rfl⟩
    | nullV =>
      simp only [pbsStep, Option.some.injEq, Prod.mk.injEq] at h
      obtain ⟨hw, hst⟩ := h
      subst hw; subst hst
      exact ⟨pres_refl hwf, rfl⟩
    | boolV b =>
      simp only [pbsStep, Option.some.injEq, Prod.mk.injEq] at h
      obtain ⟨hw, hst⟩ := h
      subst hw; subst hst
      exact ⟨pres_refl hwf, rfl⟩
    | numV n =>
      simp only [pbsStep, Option.some.injEq, Prod.mk.injEq] at h
      obtain ⟨hw, hst⟩ := h
      subst hw; subst hst
      exact ⟨pres_refl hwf, rfl⟩
    | strV s =>
      simp only [pbsStep, Option.some.injEq, Prod.mk.injEq] at h
      obtain ⟨hw, hst⟩ := h
      subst hw; subst hst
      exact ⟨pres_refl hwf, rfl⟩
    | ref a =>
      by_cases h1 : truthyId (heapGetD st.heap a).proxyObjId = true
      · -- hostObject tag: a single fresh allocation
        simp only [pbsStep, h1, if_true, allocObj, Option.some.injEq, Prod.mk.injEq] at h
        obtain ⟨hw, hst⟩ := h
        subst hw; subst hst
        refine ⟨pres_alloc
          { fields := [("_rpc_type", .strV "hostObject"),
                       ("objId", .strV ((heapGetD st.heap a).proxyObjId.getD ""))] }
          hwf (by simp [objFieldsBelow, valBelow]), ?_⟩
        simp [valBelow]
      · rw [Bool.not_eq_true] at h1
        by_cases h2 : (heapGetD st.heap a).isFunction = true
        · -- function tag: register plus a fresh allocation
          have hb : (alookup st.heap a).isSome = true := by
            refine isSome_of_heapGetD_ne_default (fun hd => ?_)
            rw [hd] at h2
            exact absurd h2 (by decide)
          rcases hreg : registerLocalFunc st a d with ⟨objId, st1⟩
          simp only [pbsStep, h1, Bool.false_eq_true, if_false, h2, if_true, hreg,
            allocObj, Option.some.injEq, Prod.mk.injEq] at h
          obtain ⟨hw, hst⟩ := h
          subst hw; subst hst
          have hp1 : Pres st st1 := by
            have := pres_registerLocalFunc d hwf hb
            rw [hreg] at this
            exact this
          refine ⟨pres_trans hp1 (pres_alloc
            { fields := [("_rpc_type", .strV "function"), ("objId", .strV objId)] }
            hp1.wf (by simp [objFieldsBelow, valBelow])), ?_⟩
          simp [valBelow]
        · rw [Bool.not_eq_true] at h2
          by_cases h3 : (heapGetD st.heap a).isPromise = true
          · -- Promise pseudo-class: register plus a fresh allocation
            have hb : (alookup st.heap a).isSome = true := by
              refine isSome_of_heapGetD_ne_default (fun hd => ?_)
              rw [hd] at h3
              exact absurd h3 (by decide)
            rcases hreg : registerLocalObj st a {} with ⟨objId, st1⟩
            have hp1 : Pres st st1 := by
              have := pres_registerLocalObj {} hwf hb
              rw [hreg] at this
              exact this
            by_cases ha : (match (heapGetD st.heap a).hostObjId with
                | some i => (alookup st.hostObjects i).isSome
                | none => false) = true
            · simp only [pbsStep, h1, Bool.false_eq_true, if_false, h2, h3, if_true, hreg,
                ha, allocObj, Option.some.injEq, Prod.mk.injEq] at h
              obtain ⟨hw, hst⟩ := h
              subst hw; subst hst
              refine ⟨pres_trans hp1 (pres_alloc
                { fields := [("_rpc_type", .strV "object"), ("objId", .strV objId),
                             ("classId", .strV "Promise")] }
                hp1.wf (by simp [objFieldsBelow, valBelow])), ?_⟩
              simp [valBelow]
            · rw [Bool.not_eq_true] at ha
              simp only [pbsStep, h1, Bool.false_eq_true, if_false, h2, h3, if_true, hreg,
                ha, allocObj, Option.some.injEq, Prod.mk.injEq] at h
              obtain ⟨hw, hst⟩ := h
              subst hw; subst hst
              have hp2 : Pres st1
                  ({ st1 with promiseReplies := st1.promiseReplies ++ [objId] }) :=
                pres_same_heap rfl rfl hp1.wf
              refine ⟨pres_trans hp1 (pres_trans hp2 (pres_alloc
                { fields := [("_rpc_type", .strV "object"), ("objId", .strV objId),
                             ("classId", .strV "Promise")] }
                hp2.wf (by simp [objFieldsBelow, valBelow]))), ?_⟩
              simp [valBelow]
          · rw [Bool.not_eq_true] at h3
            cases hcl : (match (heapGetD st.heap a).ctorClassId with
                | some cid => alookup st.hostClasses cid
                | none => none) with
            | some entry =>
              -- registered class instance: register, snapshot, two allocations
              have hb : (alookup st.heap a).isSome = true := by
                refine isSome_of_heapGetD_ne_default (fun hd => ?_)
                rw [hd] at hcl
                rw [show (default : JSObj).ctorClassId = none from rfl] at hcl
                exact Option.noConfusion hcl
              rcases hreg : registerLocalObj st a (entry.2.instancePart.getD {})
                with ⟨objId, st1⟩
              have hp1 : Pres st st1 := by
                have := pres_registerLocalObj (entry.2.instancePart.getD {}) hwf hb
                rw [hreg] at this
                exact this
              cases hprops : pbsProps (fun st c v d => processBeforeSerialization fuel st c v d)
                  st1 chan a (entry.2.instancePart.getD {}).readonlyPropertiesD [] with
              | none =>
                simp only [pbsStep, h1, Bool.false_eq_true, if_false, h2, h3, hcl, hreg,
                  hprops] at h
                exact Option.noConfusion h
              | some pr =>
                obtain ⟨props, st2⟩ := pr
                obtain ⟨hp2, hpbelow⟩ := props_pres ih _ st1 chan a [] props st2 hp1.wf
                  (by intro kv hkv; simp at hkv) hprops
                simp only [pbsStep, h1, Bool.false_eq_true, if_false, h2, h3, hcl, hreg,
                  hprops, allocObj, Option.some.injEq, Prod.mk.injEq] at h
                obtain ⟨hw, hst⟩ := h
                subst hw; subst hst
                have hp3 : Pres st2 (allocObj st2 { fields := props }).2 := by
                  refine pres_alloc _ hp2.wf ?_
                  rw [objFieldsBelow, List.all_eq_true]
                  exact fun kv hkv => valBelow_mono (hpbelow kv hkv) (Nat.le_succ _)
                have hp4 : Pres (allocObj st2 { fields := props }).2
                    (allocObj (allocObj st2 { fields := props }).2
                      { fields := [("_rpc_type", .strV "object"),
                                   ("classId", match entry.2.classIdD with
                                     | some c => .strV c
                                     | none => .undefV),
                                   ("props", .ref st2.nextAddr), ("objId", .strV objId)] }).2 := by
                  refine pres_alloc _ hp3.wf ?_
                  cases hcid : entry.2.classIdD <;>
                    simp [objFieldsBelow, allocObj, hcid, valBelow] <;>
                    omega
                refine ⟨pres_trans hp1 (pres_trans hp2 (pres_trans hp3 hp4)), ?_⟩
                simp only [valBelow, allocObj, decide_eq_true_eq]
                omega
            | none =>
              -- plain object: the in-place walk returns the same reference
              cases hwk : pbsWalk (fun st c v d => processBeforeSerialization fuel st c v d)
                  st chan a ((heapGetD st.heap a).fields.map Prod.fst) with
              | none =>
                simp only [pbsStep, h1, Bool.false_eq_true, if_false, h2, h3, hcl, hwk] at h
                exact Option.noConfusion h
              | some st1 =>
                simp only [pbsStep, h1, Bool.false_eq_true, if_false, h2, h3, hcl, hwk,
                  Option.some.injEq, Prod.mk.injEq] at h
                obtain ⟨hw, hst⟩ := h
                subst hw; subst hst
                by_cases hbnd : (alookup st.heap a).isSome = true
                · have hp := walk_pres ih _ st chan a st1 hwf hbnd (fun k hk => hk) hwk
                  exact ⟨hp, valBelow_mono hv hp.mono⟩
                · have hnone : alookup st.heap a = none := by
                    cases h0 : alookup st.heap a with
                    | none => rfl
                    | some o => rw [h0] at hbnd; simp at hbnd
                  rw [heapGetD_of_none hnone,
                    show (default : JSObj).fields = [] from rfl] at hwk
                  simp only [List.map_nil, pbsWalk, Option.some.injEq] at hwk
                  subst hwk
                  exact ⟨pres_refl hwf, hv⟩

end SuperRpc

namespace SuperRpc

/-- C9: serializing a plain object (no truthy proxy id, not a function, not a
promise, not an instance of a registered host class) walks the own enumerable
keys of the caller's object in place and returns the very same reference
rather than a copy; moreover a completed walk leaves the object bound with
its key list intact, so only the property values were overwritten with their
wire forms.  Deserializing an untagged plain object likewise rewrites it in
place and returns the same reference. -/
theorem c9_in_place_marshalling (fuel : Nat) (st : RpcState) (chan : ChannelCaps)
    (a : Nat) (d : Option FunctionDescriptor)
    (hpx : truthyId (heapGetD st.heap a).proxyObjId = false)
    (hfn : (heapGetD st.heap a).isFunction = false)
    (hpr : (heapGetD st.heap a).isPromise = false)
    (hcl : (match (heapGetD st.heap a).ctorClassId with
            | some cid => alookup st.hostClasses cid
            | none => none) = none)
    (st2 : RpcState) (chan2 : ChannelCaps) (b : Nat) (d2 : Option DescrAny)
    (hfn2 : (heapGetD st2.heap b).isFunction = false)
    (ht1 : getField (heapGetD st2.heap b) "_rpc_type" ≠ .strV "object")
    (ht2 : getField (heapGetD st2.heap b) "_rpc_type" ≠ .strV "function")
    (ht3 : getField (heapGetD st2.heap b) "_rpc_type" ≠ .strV "hostObject") :
    processBeforeSerialization (fuel + 1) st chan (.ref a) d
      = (match pbsWalk (fun st c v dd => processBeforeSerialization fuel st c v dd) st chan a
            ((heapGetD st.heap a).fields.map Prod.fst) with
         | none => none
         | some st1 => some (.ref a, st1))
    ∧ (WFHeap st = true → (alookup st.heap a).isSome = true →
        ∀ st1, pbsWalk (fun st c v dd => processBeforeSerialization fuel st c v dd) st chan a
            ((heapGetD st.heap a).fields.map Prod.fst) = some st1 →
          (alookup st1.heap a).isSome = true
          ∧ (heapGetD st1.heap a).fields.map Prod.fst
            = (heapGetD st.heap a).fields.map Prod.fst)
    ∧ processAfterDeserialization (fuel + 1) st2 chan2 (.ref b) d2
      = (match padWalk (fun st c v dd => processAfterDeserialization fuel st c v dd)
            st2 chan2 b d2 ((heapGetD st2.heap b).fields.map Prod.fst) with
         | .nofuel => .nofuel
         | .thrown e st1 => .thrown e st1
         | .ok _ st1 => .ok (.ref b) st1) := by
  refine ⟨?_, ?_, ?_⟩
  · rw [show processBeforeSerialization (fuel + 1) st chan (.ref a) d
        = pbsStep (fun st c v dd => processBeforeSerialization fuel st c v dd) st chan
            (.ref a) d from rfl]
    simp only [pbsStep, hpx, hfn, hpr, hcl, Bool.false_eq_true, if_false]
  · intro hwf hb st1 hwk
    have hp := walk_pres (pbs_spec fuel) _ st chan a st1 hwf hb (fun k hk => hk) hwk
    exact hp.keep a hb
  · rw [show processAfterDeserialization (fuel + 1) st2 chan2 (.ref b) d2
        = padStep (fun st c v dd => processAfterDeserialization fuel st c v dd) st2 chan2
            (.ref b) d2 from rfl]
    simp only [padStep, hfn2, Bool.false_eq_true, if_false, ht1, ht2, ht3, if_neg]

/-- C9 witness: the concrete plain object holding a scalar and a function
reference, and the concrete untagged received object. -/
theorem c9_witness :
    processBeforeSerialization 2 c9St ⟨true, true⟩ (.ref 0) none
      = (match pbsWalk (fun st c v dd => processBeforeSerialization 1 st c v dd) c9St
            ⟨true, true⟩ 0 ((heapGetD c9St.heap 0).fields.map Prod.fst) with
         | none => none
         | some st1 => some (.ref 0, st1))
    ∧ (WFHeap c9St = true → (alookup c9St.heap 0).isSome = true →
        ∀ st1, pbsWalk (fun st c v dd => processBeforeSerialization 1 st c v dd) c9St
            ⟨true, true⟩ 0 ((heapGetD c9St.heap 0).fields.map Prod.fst) = some st1 →
          (alookup st1.heap 0).isSome = true
          ∧ (heapGetD st1.heap 0).fields.map Prod.fst
            = (heapGetD c9St.heap 0).fields.map Prod.fst)
    ∧ processAfterDeserialization 2 c9StDeser ⟨true, true⟩ (.ref 0) none
      = (match padWalk (fun st c v dd => processAfterDeserialization 1 st c v dd)
            c9StDeser ⟨true, true⟩ 0 none
            ((heapGetD c9StDeser.heap 0).fields.map Prod.fst) with
         | .nofuel => .nofuel
         | .thrown e st1 => .thrown e st1
         | .ok _ st1 => .ok (.ref 0) st1) :=
  c9_in_place_marshalling 1 c9St ⟨true, true⟩ 0 none rfl rfl rfl rfl
    c9StDeser ⟨true, true⟩ 0 none rfl (by decide) (by decide) (by decide)

end SuperRpc
